import Mathlib

/-!
# someAPI: a verification development

A shallow embedding of the Go service `someAPI` (packages `user`, `api`,
`database`) together with theorems about it.

Conventions of the embedding.

* A Go `string` is a sequence of bytes.  It is modelled as `Bytes = List Nat`,
  every element standing for one byte (`0 .. 255`).  `str "..."` gives the bytes
  of an ASCII literal of the source.
* A Go `error` is a value of `GoError`; the `nil` error is `none`.
* Library calls (`time.Parse`, `strings.Trim`, `strings.Split`, `errors.Is`,
  `errors.As`, `http.Error`, `encoding/json`, `gorilla/mux`, `pgx`) are modelled
  by definitions that follow the behaviour of the library code they stand for.
* Loops of library code that advance through their input by a computed width are
  written with a `fuel` argument, set by the caller to the length of the input, a
  bound on the number of iterations.
* The database itself is not modelled: `DB.GetUser` and `DB.CreateUser` take the
  outcome of their statement as an argument, so that a statement about them holds
  for every way the database can answer.
* Calls to the logger have no effect on control flow or on the response and are
  left out.
-/

namespace SomeAPI

/-! ## Strings -/

/-- A Go string: its bytes, in order. -/
abbrev Bytes := List Nat

/-- The bytes of an ASCII string literal of the source. -/
def str (s : String) : Bytes := s.data.map Char.toNat

/-! ## Package `user`: errors -/

/-- The four package-level error values of `user/user.go`, each created by its own
`errors.New` call and therefore distinct from every other error value. -/
inductive UserErr where
  | ErrUserNotFound
  | ErrUserEmailAlreadyExists
  | ErrUserUUIDAlreadyExists
  | ErrMalformedBirthday
deriving DecidableEq, Repr

/-- The text given to `errors.New` for each of the four values. -/
def UserErr.text : UserErr → Bytes
  | .ErrUserNotFound => str "user not found"
  | .ErrUserEmailAlreadyExists => str "user email already exists"
  | .ErrUserUUIDAlreadyExists => str "user UUID already exists"
  | .ErrMalformedBirthday => str "user malformed birthday"

/-- The fields of `*pgconn.PgError` that the program reads (directly, or through
its `Error` method). -/
structure PgError where
  Severity : Bytes
  Code : Bytes
  Message : Bytes
  ConstraintName : Bytes
deriving DecidableEq, Repr

/-- The method `(*pgconn.PgError).Error`:
`Severity + ": " + Message + " (SQLSTATE " + Code + ")"`. -/
def PgError.Error (pe : PgError) : Bytes :=
  pe.Severity ++ str ": " ++ pe.Message ++ str " (SQLSTATE " ++ pe.Code ++ str ")"

/-- An error as the database driver hands it back: a `*pgconn.PgError`, an error
of another kind (lost connection, cancelled context, ...), or either of them
wrapped by the driver.  The driver does not know package `user`, so none of these
is one of the values of `UserErr`. -/
inductive DriverError where
  | pg (pe : PgError)
  | other (msg : Bytes)
  | wrapped (msg : Bytes) (inner : DriverError)
deriving DecidableEq, Repr

/-- The method `Error` of a driver error. -/
def DriverError.Error : DriverError → Bytes
  | .pg pe => pe.Error
  | .other msg => msg
  | .wrapped msg _ => msg

/-- The call `errors.As(err, &pgErr)` with `pgErr` of type `*pgconn.PgError`:
the first `*pgconn.PgError` on the `Unwrap` chain of `err`, if any. -/
def DriverError.asPgError : DriverError → Option PgError
  | .pg pe => some pe
  | .other _ => none
  | .wrapped _ inner => inner.asPgError

/-- A Go `error` value as it occurs in the program. -/
inductive GoError where
  /-- one of the four values declared in `user/user.go` -/
  | sentinel (e : UserErr)
  /-- an error coming from the database driver -/
  | driver (d : DriverError)
  /-- an error without `Unwrap`, such as the result of `fmt.Errorf` without `%w` -/
  | errorString (msg : Bytes)
  /-- an error with `Unwrap`, such as the result of `fmt.Errorf` with `%w` -/
  | wrapError (msg : Bytes) (err : GoError)
deriving DecidableEq, Repr

/-- The method `Error` of an error value. -/
def GoError.Error : GoError → Bytes
  | .sentinel e => e.text
  | .driver d => d.Error
  | .errorString msg => msg
  | .wrapError msg _ => msg

/-- The call `errors.Is(err, target)` for `target` one of the four values of package
`user`: walk the `Unwrap` chain of `err` and compare each element with `target`. -/
def errorsIs : GoError → UserErr → Bool
  | .sentinel e, target => e == target
  | .driver _, _ => false
  | .errorString _, _ => false
  | .wrapError _ err, target => errorsIs err target

/-! ## Package `user`: the entity -/

/-- The type `uuid.UUID` of `github.com/gofrs/uuid`, declared as `[16]byte`. -/
structure UUID where
  bytes : List Nat
  size_eq : bytes.length = 16
  byte_lt : ∀ b ∈ bytes, b < 256
deriving DecidableEq

/-- The type `User` of `user/user.go`. -/
structure User where
  ID : UUID
  Name : Bytes
  Email : Bytes
  Birthday : Bytes
deriving DecidableEq

/-- The zero value `uuid.UUID{}` (also `uuid.Nil`). -/
def UUID.zero : UUID := ⟨List.replicate 16 0, by decide, by decide⟩

/-- The zero value `user.User{}`. -/
def User.zero : User := ⟨UUID.zero, [], [], []⟩

/-! ## `time.Parse` with the layout `"2006-01-02"` -/

/-- A calendar date: what a `time.Time` built from a date-only layout stands for. -/
structure Date where
  year : Int
  month : Nat
  day : Nat
deriving DecidableEq, Repr

/-- The helper `isDigit` of package `time`: `i` is in range and `s[i]` is a decimal
digit. -/
def isDigit (s : Bytes) (i : Nat) : Bool :=
  match s[i]? with
  | none => false
  | some c => 48 ≤ c && c ≤ 57

/-- The helper `leadingInt` of package `time`: consume the leading decimal digits of
`s`, accumulating them onto `x`; `none` stands for its overflow error. -/
def leadingInt : Bytes → Nat → Option (Nat × Bytes)
  | [], x => some (x, [])
  | c :: rest, x =>
    if c < 48 || c > 57 then some (x, c :: rest)
    else if x > 2 ^ 63 / 10 then none
    else
      let y := x * 10 + (c - 48)
      if y > 2 ^ 63 then none else leadingInt rest y

/-- The helper `atoi` of package `time`: an optional sign, then digits only. -/
def atoi (s : Bytes) : Option Int :=
  let neg : Bool := match s with
    | c :: _ => c == 45
    | [] => false
  let t : Bytes := match s with
    | c :: rest => if c == 45 || c == 43 then rest else s
    | [] => s
  match leadingInt t 0 with
  | none => none
  | some (q, rem) =>
    if rem.length > 0 then none
    else some (if neg then -(q : Int) else (q : Int))

/-- The helper `getnum` of package `time`: one or two digits, exactly two when
`fixed`. -/
def getnum (s : Bytes) (fixed : Bool) : Option (Nat × Bytes) :=
  if !isDigit s 0 then none
  else if !isDigit s 1 then
    if fixed then none
    else match s with
      | c :: rest => some (c - 48, rest)
      | [] => none
  else match s with
    | c0 :: c1 :: rest => some ((c0 - 48) * 10 + (c1 - 48), rest)
    | _ => none

/-- The helper `isLeap` of package `time`. -/
def isLeap (year : Int) : Bool :=
  year % 4 == 0 && (year % 100 != 0 || year % 400 == 0)

/-- The table `daysBefore` of package `time`: the days of a non-leap year before
the end of month `m` (`daysBefore[0] = 0`). -/
def daysBefore : List Nat :=
  [0, 31, 31 + 28, 31 + 28 + 31, 31 + 28 + 31 + 30, 31 + 28 + 31 + 30 + 31,
   31 + 28 + 31 + 30 + 31 + 30, 31 + 28 + 31 + 30 + 31 + 30 + 31,
   31 + 28 + 31 + 30 + 31 + 30 + 31 + 31, 31 + 28 + 31 + 30 + 31 + 30 + 31 + 31 + 30,
   31 + 28 + 31 + 30 + 31 + 30 + 31 + 31 + 30 + 31,
   31 + 28 + 31 + 30 + 31 + 30 + 31 + 31 + 30 + 31 + 30,
   31 + 28 + 31 + 30 + 31 + 30 + 31 + 31 + 30 + 31 + 30 + 31]

/-- The helper `daysIn` of package `time`, for a month `1 ≤ m ≤ 12`. -/
def daysIn (m : Nat) (year : Int) : Nat :=
  if m == 2 && isLeap year then 29
  else daysBefore.getD m 0 - daysBefore.getD (m - 1) 0

/-- Consume the literal text that the layout holds in front of its next element
(here always `"-"`): the value has to start with it. -/
def skipLiteral (lit value : Bytes) : Option Bytes :=
  if lit.isPrefixOf value then some (value.drop lit.length) else none

/-- The call `time.Parse("2006-01-02", value)`.  The layout splits into the
elements `2006` (four-digit year), `"-"`, `01` (two-digit month), `"-"`, `02`
(two-digit day); the value is consumed element by element, nothing may be left
over, and the day is checked against the month at the end.  `none` stands for
any `*time.ParseError`. -/
def timeParseDate (value : Bytes) : Option Date :=
  -- stdLongYear
  if value.length < 4 || !isDigit value 0 then none
  else
    match atoi (value.take 4) with
    | none => none
    | some year =>
      -- literal "-", then stdZeroMonth
      match skipLiteral (str "-") (value.drop 4) with
      | none => none
      | some v1 =>
        match getnum v1 true with
        | none => none
        | some (month, v2) =>
          if month ≤ 0 || 12 < month then none
          else
            -- literal "-", then stdZeroDay
            match skipLiteral (str "-") v2 with
            | none => none
            | some v3 =>
              match getnum v3 true with
              | none => none
              | some (day, v4) =>
                -- end of layout: extra text is an error
                if v4.length != 0 then none
                -- validate the day of the month
                else if day < 1 || day > daysIn month year then none
                else some ⟨year, month, day⟩

/-- The method `User.Validate` of `user/user.go`. -/
def User.Validate (u : User) : Option GoError :=
  match timeParseDate u.Birthday with
  | none => some (.sentinel .ErrMalformedBirthday)
  | some _ => none

/-! ## The calendar-date format, as the specification words it -/

/-- A decimal digit, `'0'` to `'9'`. -/
def isDecimalDigit (c : Nat) : Bool := 48 ≤ c && c ≤ 57

/-- The number a decimal digit stands for. -/
def digitValue (c : Nat) : Nat := c - 48

/-- A Gregorian leap year: divisible by 4, and not by 100 unless by 400. -/
def gregorianLeapYear (y : Nat) : Bool := y % 4 == 0 && (y % 100 != 0 || y % 400 == 0)

/-- The length of month `m` of year `y` in the Gregorian calendar; `0` when `m` is
not a month. -/
def monthLength (y m : Nat) : Nat :=
  match m with
  | 1 => 31 | 2 => if gregorianLeapYear y then 29 else 28 | 3 => 31 | 4 => 30
  | 5 => 31 | 6 => 30 | 7 => 31 | 8 => 31 | 9 => 30 | 10 => 31 | 11 => 30 | 12 => 31
  | _ => 0

/-- The birthday strings the specification calls well-formed: ten characters
`YYYY-MM-DD`, that is four decimal digits, `'-'`, a two-digit month `01..12`, `'-'`,
and a two-digit day between `01` and the length of that month. -/
def isCalendarDateText (s : Bytes) : Bool :=
  match s with
  | [y1, y2, y3, y4, h1, m1, m2, h2, d1, d2] =>
    isDecimalDigit y1 && isDecimalDigit y2 && isDecimalDigit y3 && isDecimalDigit y4 &&
    h1 == 45 && isDecimalDigit m1 && isDecimalDigit m2 && h2 == 45 &&
    isDecimalDigit d1 && isDecimalDigit d2 &&
    1 ≤ 10 * digitValue m1 + digitValue m2 && 10 * digitValue m1 + digitValue m2 ≤ 12 &&
    1 ≤ 10 * digitValue d1 + digitValue d2 &&
    10 * digitValue d1 + digitValue d2 ≤
      monthLength (1000 * digitValue y1 + 100 * digitValue y2 + 10 * digitValue y3 + digitValue y4)
        (10 * digitValue m1 + digitValue m2)
  | _ => false

/-! ## `unicode/utf8` -/

/-- The constant `utf8.RuneError`, U+FFFD. -/
def RuneError : Nat := 0xFFFD

/-- The length of the UTF-8 sequence that the byte `s0 ≥ 0x80` starts, read off the
table `first` of package `utf8`; `0` for a byte that starts none. -/
def utf8Size (s0 : Nat) : Nat :=
  if 0xC2 ≤ s0 && s0 ≤ 0xDF then 2
  else if 0xE0 ≤ s0 && s0 ≤ 0xEF then 3
  else if 0xF0 ≤ s0 && s0 ≤ 0xF4 then 4
  else 0

/-- The least second byte accepted after the first byte `s0` (table
`acceptRanges`). -/
def acceptLo (s0 : Nat) : Nat :=
  if s0 == 0xE0 then 0xA0 else if s0 == 0xF0 then 0x90 else 0x80

/-- The greatest second byte accepted after the first byte `s0` (table
`acceptRanges`). -/
def acceptHi (s0 : Nat) : Nat :=
  if s0 == 0xED then 0x9F else if s0 == 0xF4 then 0x8F else 0xBF

/-- The function `utf8.DecodeRune` (and `DecodeRuneInString`): the first rune of `s`
and its width in bytes; `(RuneError, 1)` for an invalid encoding and
`(RuneError, 0)` for the empty string.  Masks and shifts are written as remainders
and products. -/
def decodeRune : Bytes → Nat × Nat
  | [] => (RuneError, 0)
  | s0 :: t =>
    if s0 < 0x80 then (s0, 1)
    else if utf8Size s0 == 0 then (RuneError, 1)
    else if t.length + 1 < utf8Size s0 then (RuneError, 1)
    else
      match t with
      | [] => (RuneError, 1)
      | b1 :: t1 =>
        if b1 < acceptLo s0 || acceptHi s0 < b1 then (RuneError, 1)
        else if utf8Size s0 ≤ 2 then (s0 % 32 * 64 + b1 % 64, 2)
        else
          match t1 with
          | [] => (RuneError, 1)
          | b2 :: t2 =>
            if b2 < 0x80 || 0xBF < b2 then (RuneError, 1)
            else if utf8Size s0 ≤ 3 then (s0 % 16 * 4096 + b1 % 64 * 64 + b2 % 64, 3)
            else
              match t2 with
              | [] => (RuneError, 1)
              | b3 :: _ =>
                if b3 < 0x80 || 0xBF < b3 then (RuneError, 1)
                else (s0 % 8 * 262144 + b1 % 64 * 4096 + b2 % 64 * 64 + b3 % 64, 4)

/-- The function `utf8.AppendRune` applied to the empty slice: the UTF-8 encoding of
the rune `r`, with U+FFFD in place of a surrogate or of a value above U+10FFFF. -/
def encodeRune (r : Nat) : Bytes :=
  if r ≤ 0x7F then [r]
  else if r ≤ 0x7FF then [0xC0 + r / 64, 0x80 + r % 64]
  else if r > 0x10FFFF || (0xD800 ≤ r && r ≤ 0xDFFF) then [0xEF, 0xBF, 0xBD]
  else if r ≤ 0xFFFF then [0xE0 + r / 4096, 0x80 + r / 64 % 64, 0x80 + r % 64]
  else [0xF0 + r / 262144, 0x80 + r / 4096 % 64, 0x80 + r / 64 % 64, 0x80 + r % 64]

/-- The loop of `utf8.ValidString`, bounded by `fuel` iterations. -/
def validStringLoop : Nat → Bytes → Bool
  | _, [] => true
  | 0, _ :: _ => false
  | fuel + 1, b :: rest =>
    if b < 0x80 then validStringLoop fuel rest
    else
      let rs := decodeRune (b :: rest)
      if rs.1 == RuneError && rs.2 == 1 then false
      else validStringLoop fuel (rest.drop (rs.2 - 1))

/-- The function `utf8.ValidString`: `s` consists of valid UTF-8 encodings only. -/
def validString (s : Bytes) : Bool := validStringLoop s.length s

/-! ## `github.com/gofrs/uuid`: text form -/

/-- The table `hextable` of `encoding/hex` (also `hex` of `encoding/json`). -/
def hexTable : Bytes := str "0123456789abcdef"

/-- The table entry `hextable[n]`. -/
def hexDigit (n : Nat) : Nat := hexTable.getD n 0

/-- The two lower-case hexadecimal digits of a byte, as `hex.Encode` writes them:
`hextable[b>>4]`, `hextable[b&0x0f]`. -/
def hexByte (b : Nat) : Bytes := [hexDigit (b / 16), hexDigit (b % 16)]

/-- The function `hex.EncodeToString` restricted to what `UUID.String` needs. -/
def hexEncode (bs : List Nat) : Bytes := bs.flatMap hexByte

/-- The method `UUID.String`: the canonical form
`xxxxxxxx-xxxx-xxxx-xxxx-xxxxxxxxxxxx`. -/
def UUID.String (u : UUID) : Bytes :=
  hexEncode (u.bytes.take 4) ++ [45] ++ hexEncode ((u.bytes.drop 4).take 2) ++ [45] ++
  hexEncode ((u.bytes.drop 6).take 2) ++ [45] ++ hexEncode ((u.bytes.drop 8).take 2) ++ [45] ++
  hexEncode (u.bytes.drop 10)

/-- The helper `fromHexChar` of `encoding/hex`: digits and letters of either case. -/
def fromHexChar (c : Nat) : Option Nat :=
  if 48 ≤ c && c ≤ 57 then some (c - 48)
  else if 97 ≤ c && c ≤ 102 then some (c - 97 + 10)
  else if 65 ≤ c && c ≤ 70 then some (c - 65 + 10)
  else none

/-- The function `hex.Decode`: pairs of hexadecimal digits to bytes; `none` for an
odd length or a byte that is no hexadecimal digit. -/
def hexDecode : Bytes → Option (List Nat)
  | [] => some []
  | [_] => none
  | a :: b :: rest =>
    match fromHexChar a, fromHexChar b, hexDecode rest with
    | some x, some y, some bs => some ((x * 16 + y) :: bs)
    | _, _, _ => none

/-- Sixteen decoded bytes as a `UUID`. -/
def UUID.ofBytes (bs : List Nat) : Option UUID :=
  if h : bs.length = 16 ∧ ∀ b ∈ bs, b < 256 then some ⟨bs, h.1, h.2⟩ else none

/-- The "hash-like" form: thirty-two hexadecimal digits. -/
def UUID.decodeHashLike (t : Bytes) : Option UUID :=
  match hexDecode t with
  | some bs => UUID.ofBytes bs
  | none => none

/-- The canonical form: hyphens at the offsets 8, 13, 18 and 23, hexadecimal digits
in the groups between them. -/
def UUID.decodeCanonical (t : Bytes) : Option UUID :=
  if t.getD 8 0 != 45 || t.getD 13 0 != 45 || t.getD 18 0 != 45 || t.getD 23 0 != 45 then none
  else
    match hexDecode (t.take 8), hexDecode ((t.drop 9).take 4), hexDecode ((t.drop 14).take 4),
      hexDecode ((t.drop 19).take 4), hexDecode ((t.drop 24).take 12) with
    | some g1, some g2, some g3, some g4, some g5 => UUID.ofBytes (g1 ++ g2 ++ g3 ++ g4 ++ g5)
    | _, _, _, _, _ => none

/-- The method `(*UUID).UnmarshalText`: the accepted text forms are told apart by
their length (32 hash-like, 36 canonical, 34 and 38 braced, 41 and 45 with the
`urn:uuid:` lead-in); `none` stands for its error. -/
def UUID.UnmarshalText (t : Bytes) : Option UUID :=
  if t.length == 32 then UUID.decodeHashLike t
  else if t.length == 36 then UUID.decodeCanonical t
  else if t.length == 34 || t.length == 38 then
    if t.head? == some 123 && t.getLast? == some 125 then
      let body := (t.drop 1).take (t.length - 2)
      if body.length == 32 then UUID.decodeHashLike body else UUID.decodeCanonical body
    else none
  else if t.length == 41 || t.length == 45 then
    if (str "urn:uuid:").isPrefixOf t then
      let body := t.drop 9
      if body.length == 32 then UUID.decodeHashLike body else UUID.decodeCanonical body
    else none
  else none

/-! ## `encoding/json`: encoding a `User` -/

/-- The table `htmlSafeSet` of `encoding/json`: the ASCII bytes that are written
unescaped when HTML escaping is on (the default of `Marshal` and of `Encoder`):
`0x20 .. 0x7f` without `"`, `&`, `<`, `>` and the backslash. -/
def htmlSafeSet (b : Nat) : Bool :=
  0x20 ≤ b && b ≤ 0x7F && b != 34 && b != 38 && b != 60 && b != 62 && b != 92

/-- The escape that `appendString` writes for an ASCII byte outside `htmlSafeSet`. -/
def escapeByte (b : Nat) : Bytes :=
  if b == 92 || b == 34 then [92, b]
  else if b == 8 then [92, 98]
  else if b == 12 then [92, 102]
  else if b == 10 then [92, 110]
  else if b == 13 then [92, 114]
  else if b == 9 then [92, 116]
  else [92, 117, 48, 48, hexDigit (b / 16), hexDigit (b % 16)]

/-- The loop of `appendString` of `encoding/json`, bounded by `fuel` iterations:
safe ASCII bytes and valid multi-byte runes are copied, other ASCII bytes are
escaped, an invalid byte becomes the escape of U+FFFD, and U+2028 and U+2029
are escaped. -/
def appendStringLoop : Nat → Bytes → Bytes
  | _, [] => []
  | 0, _ :: _ => []
  | fuel + 1, b :: rest =>
    if b < 0x80 then
      (if htmlSafeSet b then [b] else escapeByte b) ++ appendStringLoop fuel rest
    else
      let rs := decodeRune (b :: rest)
      if rs.1 == RuneError && rs.2 == 1 then
        [92, 117, 102, 102, 102, 100] ++ appendStringLoop fuel rest
      else if rs.1 == 0x2028 || rs.1 == 0x2029 then
        [92, 117, 50, 48, 50, hexDigit (rs.1 % 16)] ++
          appendStringLoop fuel (rest.drop (rs.2 - 1))
      else
        (b :: rest).take rs.2 ++ appendStringLoop fuel (rest.drop (rs.2 - 1))

/-- The function `appendString` of `encoding/json` with HTML escaping: the JSON
string literal for the Go string `src`. -/
def appendString (src : Bytes) : Bytes :=
  [34] ++ appendStringLoop src.length src ++ [34]

/-- The call `json.Marshal(u)` for a `User`: the struct fields in declaration order,
the `ID` through its `MarshalText` method (the text of `UUID.String`).  Encoding a
`User` has no failing case. -/
def jsonMarshalUser (u : User) : Bytes :=
  [123] ++ appendString (str "ID") ++ [58] ++ appendString u.ID.String ++
  [44] ++ appendString (str "Name") ++ [58] ++ appendString u.Name ++
  [44] ++ appendString (str "Email") ++ [58] ++ appendString u.Email ++
  [44] ++ appendString (str "Birthday") ++ [58] ++ appendString u.Birthday ++ [125]

/-- The call `json.NewEncoder(w).Encode(u)` for a `User`: what is written to `w`
(the encoding followed by a newline), or the error. -/
def jsonEncodeUser (u : User) : Except GoError Bytes :=
  .ok (jsonMarshalUser u ++ [10])

/-! ## `encoding/json`: decoding a `User` -/

/-- The helper `isSpace` of the JSON scanner. -/
def isSpace (c : Nat) : Bool := c == 32 || c == 9 || c == 13 || c == 10

/-- Skip JSON white space. -/
def skipSpace : Bytes → Bytes
  | [] => []
  | c :: rest => if isSpace c then skipSpace rest else c :: rest

/-- The helper `getu4` of `encoding/json`: the rune of the escape `\uXXXX` that `s`
starts with; `none` stands for its result `-1`. -/
def getu4 (s : Bytes) : Option Nat :=
  match s with
  | 92 :: 117 :: a :: b :: c :: d :: _ =>
    match fromHexChar a, fromHexChar b, fromHexChar c, fromHexChar d with
    | some x, some y, some z, some w => some (x * 4096 + y * 256 + z * 16 + w)
    | _, _, _, _ => none
  | _ => none

/-- The function `utf16.DecodeRune`: the rune of a surrogate pair, U+FFFD when the
two values are no valid pair (`none` for a second escape that is absent). -/
def utf16DecodeRune (r1 : Nat) (r2 : Option Nat) : Nat :=
  match r2 with
  | some r2 =>
    if 0xD800 ≤ r1 && r1 < 0xDC00 && 0xDC00 ≤ r2 && r2 < 0xE000 then
      (r1 - 0xD800) * 1024 + (r2 - 0xDC00) + 0x10000
    else RuneError
  | none => RuneError

/-- One escape sequence of a JSON string literal, from the byte after the backslash
on: the bytes it stands for and the input after it.  For `\uXXXX` the rune is read
by `getu4`; a surrogate is combined with the surrogate escape that follows it, or
replaced by U+FFFD if none follows.  `none` stands for a syntax error. -/
def unquoteEscape (rest : Bytes) : Option (Bytes × Bytes) :=
  match rest with
  | [] => none
  | e :: rest1 =>
    if e == 34 || e == 92 || e == 47 then some ([e], rest1)
    else if e == 98 then some ([8], rest1)
    else if e == 102 then some ([12], rest1)
    else if e == 110 then some ([10], rest1)
    else if e == 114 then some ([13], rest1)
    else if e == 116 then some ([9], rest1)
    else if e == 117 then
      match getu4 (92 :: rest) with
      | none => none
      | some rr =>
        if 0xD800 ≤ rr && rr < 0xE000 then
          let dec := utf16DecodeRune rr (getu4 (rest1.drop 4))
          if dec != RuneError then some (encodeRune dec, rest1.drop 10)
          else some (encodeRune RuneError, rest1.drop 4)
        else some (encodeRune rr, rest1.drop 4)
    else none

/-- The body of a JSON string literal, from the byte after the opening quote on:
the scanner's string states together with `unquoteBytes`.  Gives the Go string
the literal stands for and the input after the closing quote; `none` stands for a
syntax error or the end of the input.  Bounded by `fuel` iterations. -/
def unquoteLoop : Nat → Bytes → Option (Bytes × Bytes)
  | _, [] => none
  | 0, _ :: _ => none
  | fuel + 1, c :: rest =>
    if c == 34 then some ([], rest)
    else if c == 92 then
      match unquoteEscape rest with
      | none => none
      | some (out, rest1) => (unquoteLoop fuel rest1).map fun r => (out ++ r.1, r.2)
    else if c < 32 then none
    else if c < 0x80 then (unquoteLoop fuel rest).map fun r => (c :: r.1, r.2)
    else
      (unquoteLoop fuel (rest.drop ((decodeRune (c :: rest)).2 - 1))).map
        fun r => (encodeRune (decodeRune (c :: rest)).1 ++ r.1, r.2)

/-- A JSON string literal whose opening quote has been consumed. -/
def unquote (s : Bytes) : Option (Bytes × Bytes) := unquoteLoop s.length s

/-- Skip decimal digits. -/
def skipDigits : Bytes → Bytes
  | [] => []
  | c :: rest => if isDecimalDigit c then skipDigits rest else c :: rest

/-- The exponent part of a JSON number, if there is one. -/
def scanExponent (s : Bytes) : Option Bytes :=
  match s with
  | c :: r =>
    if c == 101 || c == 69 then
      let r1 := match r with
        | sign :: r2 => if sign == 43 || sign == 45 then r2 else r
        | [] => r
      match r1 with
      | d :: r3 => if isDecimalDigit d then some (skipDigits r3) else none
      | [] => none
    else some s
  | [] => some []

/-- The fraction part of a JSON number, if there is one, and the exponent. -/
def scanFraction (s : Bytes) : Option Bytes :=
  match s with
  | 46 :: d :: r => if isDecimalDigit d then scanExponent (skipDigits r) else none
  | [46] => none
  | _ => scanExponent s

/-- A JSON number: the input after it, `none` for a syntax error. -/
def scanNumber (s : Bytes) : Option Bytes :=
  let s1 := match s with
    | 45 :: r => r
    | _ => s
  match s1 with
  | c :: r =>
    if c == 48 then scanFraction r
    else if 49 ≤ c && c ≤ 57 then scanFraction (skipDigits r)
    else none
  | [] => none

/-- What the decoder has to know of a JSON value it has scanned: its kind, and its
content when it is a string. -/
inductive JValue where
  | null
  | bool
  | number
  | string (s : Bytes)
  | array
  | object (members : List (Bytes × JValue))
deriving Repr

/-- The constant `maxNestingDepth` of `encoding/json`: the scanner gives up with
`exceeded max depth` when more objects and arrays than this are open at once. -/
def maxNestingDepth : Nat := 10000

mutual
/-- Scan one JSON value (the scanner of `encoding/json`): the value and the input
after it, `none` for a syntax error or the end of the input.  `depth` counts the
objects and arrays that are open around the value; opening one more than
`maxNestingDepth` is a syntax error.  Bounded by `fuel` levels of calls. -/
def scanValue : Nat → Nat → Bytes → Option (JValue × Bytes)
  | 0, _, _ => none
  | fuel + 1, depth, s =>
    match skipSpace s with
    | [] => none
    | c :: rest =>
      if c == 123 then
        if maxNestingDepth ≤ depth then none
        else
          match skipSpace rest with
          | 125 :: rest1 => some (.object [], rest1)
          | _ => (scanMembers fuel (depth + 1) rest).map fun r => (.object r.1, r.2)
      else if c == 91 then
        if maxNestingDepth ≤ depth then none
        else
          match skipSpace rest with
          | 93 :: rest1 => some (.array, rest1)
          | _ => (scanElements fuel (depth + 1) rest).map fun r => (.array, r)
      else if c == 34 then (unquote rest).map fun r => (.string r.1, r.2)
      else if c == 45 || isDecimalDigit c then (scanNumber (c :: rest)).map fun r => (.number, r)
      else if (str "true").isPrefixOf (c :: rest) then some (.bool, rest.drop 3)
      else if (str "false").isPrefixOf (c :: rest) then some (.bool, rest.drop 4)
      else if (str "null").isPrefixOf (c :: rest) then some (.null, rest.drop 3)
      else none
/-- Scan the members of an object, from the first key up to the closing brace;
`depth` counts the objects and arrays open around them, this object included. -/
def scanMembers : Nat → Nat → Bytes → Option (List (Bytes × JValue) × Bytes)
  | 0, _, _ => none
  | fuel + 1, depth, s =>
    match skipSpace s with
    | 34 :: rest =>
      match unquote rest with
      | none => none
      | some (key, r1) =>
        match skipSpace r1 with
        | 58 :: r2 =>
          match scanValue fuel depth r2 with
          | none => none
          | some (v, r3) =>
            match skipSpace r3 with
            | 44 :: r4 => (scanMembers fuel depth r4).map fun r => ((key, v) :: r.1, r.2)
            | 125 :: r4 => some ([(key, v)], r4)
            | _ => none
        | _ => none
    | _ => none
/-- Scan the elements of an array, from the first one up to the closing bracket;
`depth` counts the objects and arrays open around them, this array included. -/
def scanElements : Nat → Nat → Bytes → Option Bytes
  | 0, _, _ => none
  | fuel + 1, depth, s =>
    match scanValue fuel depth s with
    | none => none
    | some (_, r1) =>
      match skipSpace r1 with
      | 44 :: r2 => scanElements fuel depth r2
      | 93 :: r2 => some r2
      | _ => none
end

/-- ASCII upper case of a byte. -/
def asciiUpper (b : Nat) : Nat := if 97 ≤ b && b ≤ 122 then b - 32 else b

/-- A JSON key selects the struct field `name` when the two are equal up to the
case of ASCII letters (the exact match that the decoder tries first is one such
match, and no two fields of `User` compete for a key). -/
def keyMatches (key : Bytes) (name : String) : Bool :=
  key.map asciiUpper == (str name).map asciiUpper

/-- The error of a `Decode` call on input that is no JSON value (a
`*json.SyntaxError`, `io.EOF` or `io.ErrUnexpectedEOF`).  Only the kind of the error
is modelled: its text is one fixed text standing for the text of whichever of them
applies, which in `encoding/json` depends on the offending byte. -/
def jsonSyntaxError : GoError := .errorString (str "json: invalid input")

/-- A `*json.UnmarshalTypeError`: a JSON value of the wrong kind for its target.
Only the kind of the error is modelled: its text is one fixed text standing for
the text of `encoding/json`, which names the JSON value, the field and its type. -/
def jsonTypeError : GoError := .errorString (str "json: cannot unmarshal value into Go value")

/-- The error of `(*UUID).UnmarshalText`.  Only the kind of the error is modelled:
its text is one fixed text standing for the text of `gofrs/uuid`, which quotes the
rejected input. -/
def uuidTextError : GoError := .errorString (str "uuid: incorrect UUID format")

/-- The state of `decodeState.object` while it fills a `User`: the struct so far
and the first saved `UnmarshalTypeError`, if any. -/
structure DecodeState where
  user : User
  savedError : Option GoError

/-- Record an `UnmarshalTypeError` (`decodeState.saveError` keeps the first). -/
def DecodeState.saveError (d : DecodeState) (e : GoError) : DecodeState :=
  { d with savedError := match d.savedError with
      | none => some e
      | some e0 => some e0 }

/-- Store a JSON value into one of the string fields: a string is stored, `null`
leaves the field alone, any other kind is a saved type error. -/
def storeString (d : DecodeState) (v : JValue) (set : User → Bytes → User) : DecodeState :=
  match v with
  | .string s => { d with user := set d.user s }
  | .null => d
  | _ => d.saveError jsonTypeError

/-- Store one object member into the `User`.  An unknown key is skipped.  The field
`ID` goes through `UnmarshalText`, whose error ends the decoding at once. -/
def storeMember (d : DecodeState) (key : Bytes) (v : JValue) : Except GoError DecodeState :=
  if keyMatches key "ID" then
    match v with
    | .string s =>
      match UUID.UnmarshalText s with
      | some id => .ok { d with user := { d.user with ID := id } }
      | none => .error uuidTextError
    | .null => .ok d
    | _ => .ok (d.saveError jsonTypeError)
  else if keyMatches key "Name" then
    .ok (storeString d v fun u s => { u with Name := s })
  else if keyMatches key "Email" then
    .ok (storeString d v fun u s => { u with Email := s })
  else if keyMatches key "Birthday" then
    .ok (storeString d v fun u s => { u with Birthday := s })
  else .ok d

/-- Store the members of an object in their order. -/
def storeMembers : DecodeState → List (Bytes × JValue) → Except GoError DecodeState
  | d, [] => .ok d
  | d, (key, v) :: rest =>
    match storeMember d key v with
    | .error e => .error e
    | .ok d1 => storeMembers d1 rest

/-- The call `json.NewDecoder(r.Body).Decode(&userCreate)` on a fresh `userCreate`:
the first JSON value of the body is scanned (what follows it is not looked at) and
stored into the zero `User`. -/
def jsonDecodeUser (body : Bytes) : Except GoError User :=
  match scanValue (body.length + 1) 0 body with
  | none => .error jsonSyntaxError
  | some (.object members, _) =>
    match storeMembers ⟨User.zero, none⟩ members with
    | .error e => .error e
    | .ok d =>
      match d.savedError with
      | some e => .error e
      | none => .ok d.user
  | some (.null, _) => .ok User.zero
  | some (_, _) => .error jsonTypeError

/-! ## `strings.Trim` and `strings.Split` -/

/-- Drop the leading bytes equal to `c`. -/
def trimLeftByte (c : Nat) : Bytes → Bytes
  | [] => []
  | x :: xs => if x == c then trimLeftByte c xs else x :: xs

/-- The call `strings.Trim(s, "/")`: `s` without its leading and trailing slashes. -/
def stringsTrimSlash (s : Bytes) : Bytes :=
  (trimLeftByte 47 (trimLeftByte 47 s).reverse).reverse

/-- The call `strings.Split(s, "/")`: the pieces of `s` between its slashes, one
more than there are slashes. -/
def stringsSplitSlash : Bytes → List Bytes
  | [] => [[]]
  | x :: xs =>
    if x == 47 then [] :: stringsSplitSlash xs
    else
      match stringsSplitSlash xs with
      | seg :: segs => (x :: seg) :: segs
      | [] => [[x]]

/-! ## `net/http`: requests and the response writer -/

/-- The parts of an `*http.Request` the program reads. -/
structure Request where
  Method : Bytes
  Path : Bytes
  Body : Bytes

/-- The state of an `http.ResponseWriter` (as `httptest.ResponseRecorder` records
it): the header map, the status code once the header has been written, and the
body written so far. -/
structure ResponseWriter where
  header : List (Bytes × Bytes)
  code : Option Nat
  body : Bytes
deriving DecidableEq, Repr

/-- A fresh response writer. -/
def ResponseWriter.new : ResponseWriter := ⟨[], none, []⟩

/-- The status code of the response: the one written, `200` if none was. -/
def ResponseWriter.status (w : ResponseWriter) : Nat := w.code.getD 200

/-- The call `w.Header().Set(key, value)`. -/
def ResponseWriter.setHeader (w : ResponseWriter) (key value : Bytes) : ResponseWriter :=
  { w with header := w.header.filter (fun kv => kv.1 != key) ++ [(key, value)] }

/-- The call `w.Header().Del(key)`. -/
def ResponseWriter.delHeader (w : ResponseWriter) (key : Bytes) : ResponseWriter :=
  { w with header := w.header.filter (fun kv => kv.1 != key) }

/-- The call `w.Header().Get(key)`. -/
def ResponseWriter.getHeader (w : ResponseWriter) (key : Bytes) : Option Bytes :=
  (w.header.find? (fun kv => kv.1 == key)).map (·.2)

/-- The call `w.WriteHeader(code)`: only the first call counts. -/
def ResponseWriter.WriteHeader (w : ResponseWriter) (code : Nat) : ResponseWriter :=
  match w.code with
  | none => { w with code := some code }
  | some _ => w

/-- The call `w.Write(data)`: writes the header with status 200 if it has not been
written yet. -/
def ResponseWriter.Write (w : ResponseWriter) (data : Bytes) : ResponseWriter :=
  let w1 := w.WriteHeader 200
  { w1 with body := w1.body ++ data }

/-- The function `http.Error(w, msg, code)`: plain-text headers, the status code,
and `msg` followed by a newline (`fmt.Fprintln`). -/
def httpError (w : ResponseWriter) (msg : Bytes) (code : Nat) : ResponseWriter :=
  let w1 := w.delHeader (str "Content-Length")
  let w2 := w1.setHeader (str "Content-Type") (str "text/plain; charset=utf-8")
  let w3 := w2.setHeader (str "X-Content-Type-Options") (str "nosniff")
  (w3.WriteHeader code).Write (msg ++ [10])

/-- The constant `http.StatusNoContent`. -/
def StatusNoContent : Nat := 204
/-- The constant `http.StatusBadRequest`. -/
def StatusBadRequest : Nat := 400
/-- The constant `http.StatusNotFound`. -/
def StatusNotFound : Nat := 404
/-- The constant `http.StatusMethodNotAllowed`. -/
def StatusMethodNotAllowed : Nat := 405
/-- The constant `http.StatusConflict`. -/
def StatusConflict : Nat := 409
/-- The constant `http.StatusInternalServerError`. -/
def StatusInternalServerError : Nat := 500

/-! ## Package `api`: the registry interface and the handlers -/

/-- The interface `Registry` of `api/api.go`, over an implementation whose state has
type `σ`: each method gives its result and the state it leaves behind. -/
structure Registry (σ : Type) where
  GetUser : σ → Bytes → Except GoError User × σ
  CreateUser : σ → User → Option GoError × σ

/-- A call of a `Registry` method, with its argument. -/
inductive RegistryCall where
  | GetUser (email : Bytes)
  | CreateUser (u : User)
deriving DecidableEq

/-- What a handler run leaves behind: the response, the state of the registry, and
the calls it made on the registry, in order. -/
structure Served (σ : Type) where
  w : ResponseWriter
  state : σ
  calls : List RegistryCall

/-- The handler `(*App).getUser` of `api/api.go`. -/
def getUser {σ : Type} (reg : Registry σ) (st : σ) (w : ResponseWriter) (r : Request) :
    Served σ :=
  let path := r.Path
  let pathElements := stringsSplitSlash (stringsTrimSlash path)
  if pathElements.length < 2 then
    ⟨httpError w (str "malformed URI") StatusBadRequest, st, []⟩
  else
    let email := pathElements.getD 1 []
    match reg.GetUser st email with
    | (.error err, st1) =>
      if errorsIs err .ErrUserNotFound then
        ⟨httpError w err.Error StatusNotFound, st1, [.GetUser email]⟩
      else
        ⟨httpError w err.Error StatusInternalServerError, st1, [.GetUser email]⟩
    | (.ok userFound, st1) =>
      let w1 := w.setHeader (str "Content-Type") (str "application/json")
      match jsonEncodeUser userFound with
      | .error err => ⟨httpError w1 err.Error StatusInternalServerError, st1, [.GetUser email]⟩
      | .ok out => ⟨w1.Write out, st1, [.GetUser email]⟩

/-- The handler `(*App).createUser` of `api/api.go`. -/
def createUser {σ : Type} (reg : Registry σ) (st : σ) (w : ResponseWriter) (r : Request) :
    Served σ :=
  match jsonDecodeUser r.Body with
  | .error err => ⟨httpError w err.Error StatusBadRequest, st, []⟩
  | .ok userCreate =>
    match userCreate.Validate with
    | some err => ⟨httpError w err.Error StatusBadRequest, st, []⟩
    | none =>
      match reg.CreateUser st userCreate with
      | (some err, st1) =>
        if errorsIs err .ErrUserEmailAlreadyExists then
          ⟨httpError w err.Error StatusConflict, st1, [.CreateUser userCreate]⟩
        else if errorsIs err .ErrUserUUIDAlreadyExists then
          ⟨httpError w err.Error StatusConflict, st1, [.CreateUser userCreate]⟩
        else
          ⟨httpError w err.Error StatusInternalServerError, st1, [.CreateUser userCreate]⟩
      | (none, st1) => ⟨w.WriteHeader StatusNoContent, st1, [.CreateUser userCreate]⟩

/-! ## The in-memory registry of `api/api_test.go` -/

/-- The type `mockRegistry`: the map `users` from email to user and the map `uuids`
from the text of an ID to `true`. -/
structure MockRegistry where
  users : Bytes → Option User
  uuids : Bytes → Option Bool

/-- The registry with two empty maps. -/
def MockRegistry.empty : MockRegistry := ⟨fun _ => none, fun _ => none⟩

/-- The method `(*mockRegistry).GetUser`. -/
def MockRegistry.GetUser (m : MockRegistry) (email : Bytes) : Except GoError User × MockRegistry :=
  match m.users email with
  | none => (.error (.sentinel .ErrUserNotFound), m)
  | some u => (.ok u, m)

/-- The method `(*mockRegistry).CreateUser`. -/
def MockRegistry.CreateUser (m : MockRegistry) (u : User) : Option GoError × MockRegistry :=
  if (m.users u.Email).isSome then (some (.sentinel .ErrUserEmailAlreadyExists), m)
  else if (m.uuids u.ID.String).isSome then (some (.sentinel .ErrUserUUIDAlreadyExists), m)
  else
    (none,
      { users := fun k => if k = u.Email then some u else m.users k,
        uuids := fun k => if k = u.ID.String then some true else m.uuids k })

/-- The type `mockRegistry` as an implementation of `Registry`. -/
def mockRegistry : Registry MockRegistry :=
  ⟨MockRegistry.GetUser, MockRegistry.CreateUser⟩

/-! ## `gorilla/mux`: the route table of `CreateAPI` -/

/-- The two handlers of `App`. -/
inductive Handler where
  | getUser
  | createUser
deriving DecidableEq, Repr

/-- A route as `r.HandleFunc(path, h).Methods(method)` registers it.  `path` is a
template without variables, so its matcher is the regular expression `^path$`. -/
structure Route where
  path : Bytes
  methods : List Bytes
  handler : Handler

/-- The clean-up of a rooted path by `path.Clean`, on the segments between slashes:
empty segments and `.` go away, `..` removes the segment before it. -/
def cleanSegments : List Bytes → List Bytes → List Bytes
  | [], acc => acc.reverse
  | seg :: rest, acc =>
    if seg == [] || seg == [46] then cleanSegments rest acc
    else if seg == [46, 46] then cleanSegments rest acc.tail
    else cleanSegments rest (seg :: acc)

/-- The helper `cleanPath` of `gorilla/mux`: the canonical form of a request path,
rooted, and with the trailing slash, if there was one, kept. -/
def cleanPath (p : Bytes) : Bytes :=
  let q := if p.head? == some 47 then p else 47 :: p
  let np := 47 :: [47].intercalate (cleanSegments (stringsSplitSlash q) [])
  if q.getLast? == some 47 && np != [47] then np ++ [47] else np

/-- The outcome of `(*Router).ServeHTTP` up to the call of the handler. -/
inductive Dispatch where
  /-- the path is not in canonical form: redirect to it -/
  | redirect (location : Bytes)
  /-- a route matched: its handler runs -/
  | handler (h : Handler)
  /-- a route matched the path, none matched the method as well -/
  | methodNotAllowed
  /-- no route matched the path -/
  | notFound
deriving DecidableEq, Repr

/-- The method `(*Router).Match` over routes with a path matcher and a method
matcher each: the first route matching both wins; `methodMismatch` records that
an earlier route matched the path only. -/
def matchRoutes : List Route → Request → Bool → Dispatch
  | [], _, methodMismatch => if methodMismatch then .methodNotAllowed else .notFound
  | route :: rest, r, methodMismatch =>
    if r.Path == route.path then
      if route.methods.contains r.Method then .handler route.handler
      else matchRoutes rest r true
    else matchRoutes rest r methodMismatch

/-- The method `(*Router).ServeHTTP` up to the call of the handler. -/
def dispatch (routes : List Route) (r : Request) : Dispatch :=
  if cleanPath r.Path != r.Path then .redirect (cleanPath r.Path)
  else matchRoutes routes r false

/-- The route table that `CreateAPI` of `api/api.go` builds. -/
def CreateAPI : List Route :=
  [⟨str "/user", [str "GET"], .getUser⟩, ⟨str "/user", [str "POST"], .createUser⟩]

/-- A request served through the router of `CreateAPI` (registered for the pattern
`"/"`, which covers every path).  The model starts at `(*Router).ServeHTTP`.  In the
running program `http.DefaultServeMux` stands in front of the router and answers a
path that is not in canonical form itself, with the same status 301; of such an
answer the model keeps the status and the cleaned path, not the escaping of the
location nor the HTML body that `net/http` writes. -/
def serveHTTP {σ : Type} (reg : Registry σ) (st : σ) (w : ResponseWriter) (r : Request) :
    Served σ :=
  match dispatch CreateAPI r with
  | .redirect location => ⟨(w.setHeader (str "Location") location).WriteHeader 301, st, []⟩
  | .handler .getUser => getUser reg st w r
  | .handler .createUser => createUser reg st w r
  | .methodNotAllowed => ⟨w.WriteHeader StatusMethodNotAllowed, st, []⟩
  | .notFound => ⟨httpError w (str "404 page not found") StatusNotFound, st, []⟩

/-! ## Package `database` -/

/-- The decimal digits of `u`, most significant first, at least one. -/
def decimalDigits (u : Nat) : Bytes := (Nat.toDigits 10 u).map Char.toNat

/-- The helper `appendInt` of package `time`: `x` in decimal, padded with zeros to
`width` digits, after a minus sign if negative. -/
def appendInt (x : Int) (width : Nat) : Bytes :=
  let sign : Bytes := if x < 0 then [45] else []
  let u := x.natAbs
  if width == 2 && u < 100 then sign ++ [48 + u / 10, 48 + u % 10]
  else if width == 4 && u < 10000 then
    sign ++ [48 + u / 1000, 48 + u / 100 % 10, 48 + u / 10 % 10, 48 + u % 10]
  else
    sign ++ List.replicate (width - (decimalDigits u).length) 48 ++ decimalDigits u

/-- The call `t.Format("2006-01-02")` for the date `t`. -/
def Date.Format (t : Date) : Bytes :=
  appendInt t.year 4 ++ [45] ++ appendInt t.month 2 ++ [45] ++ appendInt t.day 2

/-- A result row of the lookup query, given by what `rows.Scan(&id, &name,
&birthday)` does on it: the three values, or the error. -/
abbrev Row := Except DriverError (UUID × Bytes × Date)

/-- The value `pgx.Rows` that a successful `Query` call returns: the rows that are
read one by one, and the error, if any, that ended the reading (what `rows.Err()`
reports afterwards).  `rows.Next()` is `true` while a row is left, and `false`
both at the regular end and when reading failed. -/
structure Rows where
  rows : List Row
  err : Option DriverError

/-- The outcome of `db.Secondary.Query(...)`: the error, or the rows. -/
abbrev QueryOutcome := Except DriverError Rows

/-- The method `(*DB).GetUser` of `database/database.go`, given the outcome of its
query. -/
def DB.GetUser (query : QueryOutcome) (email : Bytes) : Except GoError User :=
  match query with
  | .error err => .error (.driver err)
  | .ok rows =>
    match rows.rows with
    | [] => .error (.sentinel .ErrUserNotFound)
    | row :: _ =>
      match row with
      | .error err => .error (.driver err)
      | .ok (id, name, birthday) => .ok ⟨id, name, email, birthday.Format⟩

/-- The method `(*DB).CreateUser` of `database/database.go`, given the outcome of
its insert statement (`none` when `Exec` returned no error). -/
def DB.CreateUser (exec : Option DriverError) (_u : User) : Option GoError :=
  match exec with
  | some err =>
    match err.asPgError with
    | some pgErr =>
      if pgErr.Code == str "23505" then
        if pgErr.ConstraintName == str "users_email_key" then
          some (.sentinel .ErrUserEmailAlreadyExists)
        else if pgErr.ConstraintName == str "users_id_key" then
          some (.sentinel .ErrUserUUIDAlreadyExists)
        else
          some (.wrapError (str "unique constraint violation: " ++ err.Error) (.driver err))
      else
        some (.errorString (str "database error: " ++ err.Error))
    | none => some (.errorString (str "unexpected error: " ++ err.Error))
  | none => none


/-- How the database answers the statements issued for one request: the outcome of
the lookup query and the outcome of the insert statement. -/
structure DBAnswers where
  query : QueryOutcome
  exec : Option DriverError

/-- The type `*DB` as the implementation of `Registry` that `cmd/app.go` hands to
`CreateAPI`; the state says how the database answers. -/
def dbRegistry : Registry DBAnswers :=
  ⟨fun st email => (DB.GetUser st.query email, st), fun st u => (DB.CreateUser st.exec u, st)⟩

/-! ## Notions of the specification used in the statements -/

/-- The second of the segments that the slashes cut a path into: the bytes between
its first and its second slash (up to the end if there is no second slash). -/
def secondSegment (s : Bytes) : Bytes :=
  ((s.dropWhile (fun c => c != 47)).drop 1).takeWhile (fun c => c != 47)

/-- The canonical hyphenated text form of a UUID: thirty-six characters, hyphens at
the offsets 8, 13, 18 and 23, lower-case hexadecimal digits elsewhere. -/
def isCanonicalUUIDText (t : Bytes) : Bool :=
  t.length == 36 &&
  (List.range 36).all fun i =>
    if i == 8 || i == 13 || i == 18 || i == 23 then t.getD i 0 == 45
    else (48 ≤ t.getD i 0 && t.getD i 0 ≤ 57) || (97 ≤ t.getD i 0 && t.getD i 0 ≤ 102)

/-- The driver error `err` is, or wraps, a report of the database whose first
`*pgconn.PgError` carries SQLSTATE 23505 (unique violation) and names the
constraint `name`.  Stated on the shape of the error itself, without the model of
`errors.As`. -/
def reportsUniqueViolation : DriverError → String → Bool
  | .pg pe, name => pe.Code == str "23505" && pe.ConstraintName == str name
  | .other _, _ => false
  | .wrapped _ inner, name => reportsUniqueViolation inner name

/-- The database reports a unique violation (SQLSTATE 23505) on the constraint
`name`: the insert statement failed, and its error is such a report. -/
def uniqueViolationOn (exec : Option DriverError) (name : String) : Bool :=
  match exec with
  | none => false
  | some err => reportsUniqueViolation err name

/-- The words that `(*DB).CreateUser` puts in front of the text of a driver error it
does not classify, by the kind of the failure: a unique violation on a constraint it
does not know, another database error, or an error that is no database error. -/
def unclassifiedLeadIn (err : DriverError) : Bytes :=
  match err.asPgError with
  | none => str "unexpected error: "
  | some pe =>
    if pe.Code == str "23505" then str "unique constraint violation: "
    else str "database error: "

/-! ## Values taken from the tests -/

/-- The UUID `9d225408-6a94-49e7-8e04-69ff654e0ff4` of `user/user_test.go`. -/
def sampleID : UUID :=
  ⟨[0x9d, 0x22, 0x54, 0x08, 0x6a, 0x94, 0x49, 0xe7, 0x8e, 0x04, 0x69, 0xff, 0x65, 0x4e, 0x0f, 0xf4],
    by decide, by decide⟩

/-- The user that `TestCreateUser` posts. -/
def newUser : User := ⟨sampleID, str "New User", str "new@example.com", str "1999-12-31"⟩

/-- The user that `TestCreateUserMalformedBirthday` posts. -/
def malformedUser : User := ⟨sampleID, str "New User", str "new@example.com", str "31/12/1999"⟩

/-- The request of `TestCreateUser`. -/
def newUserRequest : Request :=
  ⟨str "POST", str "/user",
    str "\x7b\"ID\":\"9d225408-6a94-49e7-8e04-69ff654e0ff4\",\"Name\":\"New User\",\"Email\":\"new@example.com\",\"Birthday\":\"1999-12-31\"\x7d"⟩

/-- The request of `TestCreateUserMalformedBirthday`. -/
def malformedUserRequest : Request :=
  ⟨str "POST", str "/user",
    str "\x7b\"ID\":\"9d225408-6a94-49e7-8e04-69ff654e0ff4\",\"Name\":\"New User\",\"Email\":\"new@example.com\",\"Birthday\":\"31/12/1999\"\x7d"⟩

/-- The user that `TestGetUser` stores; its birthday is no calendar date in the
format of `Validate`. -/
def testUser : User := ⟨sampleID, str "Test User", str "test@example.com", str "01/01/2001"⟩

/-- The registry of `TestGetUser`: it holds `testUser` under its email. -/
def testRegistry : MockRegistry :=
  ⟨fun k => if k = str "test@example.com" then some testUser else none,
    fun k => if k = sampleID.String then some true else none⟩

/-- A user whose name is not valid UTF-8: the single byte `0xFF` (the letter `ÿ` in
Latin-1). -/
def latin1User : User := ⟨sampleID, [0xFF], str "new@example.com", str "1999-12-31"⟩

/-- What the JSON round trip makes of `latin1User`: the name is U+FFFD. -/
def latin1UserCoerced : User :=
  ⟨sampleID, [0xEF, 0xBF, 0xBD], str "new@example.com", str "1999-12-31"⟩

/-- A user without email. -/
def blankEmailUser : User := ⟨sampleID, str "New User", [], str "1999-12-31"⟩

/-- The registry after `blankEmailUser` has been created in the empty registry. -/
def blankEmailRegistry : MockRegistry := (MockRegistry.empty.CreateUser blankEmailUser).2

/-- A registry that holds `latin1User` under its email. -/
def latin1Registry : MockRegistry := (MockRegistry.empty.CreateUser latin1User).2

/-- A user whose email is not valid UTF-8. -/
def latin1EmailUser : User := ⟨sampleID, str "New User", [0xFF], str "1999-12-31"⟩

/-- A registry out of reach: both methods fail with a driver error. -/
def brokenRegistry : Registry Unit :=
  ⟨fun st _ => (Except.error (GoError.driver (DriverError.other (str "connection refused"))), st),
    fun st _ => (some (GoError.driver (DriverError.other (str "connection refused"))), st)⟩

/-- A database error as PostgreSQL reports a missing table. -/
def undefinedTableError : PgError :=
  ⟨str "ERROR", str "42P01", str "relation \"users\" does not exist", []⟩

/-- A database error as PostgreSQL reports an exhausted connection limit. -/
def tooManyConnectionsError : PgError :=
  ⟨str "FATAL", str "53300", str "sorry, too many clients already", []⟩

/-- A database that answers the insert statement with `pe` (and a lookup with no
row). -/
def failingDatabase (pe : PgError) : DBAnswers :=
  ⟨Except.ok ⟨[], none⟩, some (DriverError.pg pe)⟩

/-! # Theorems -/

/-! ## `User.Validate` -/

theorem getnum_fixed (s : Bytes) :
    getnum s true = match s with
      | c0 :: c1 :: rest =>
        if isDecimalDigit c0 && isDecimalDigit c1 then some (digitValue c0 * 10 + digitValue c1, rest) else none
      | _ => none := by
  rcases s with _ | ⟨c0, _ | ⟨c1, rest⟩⟩ <;> simp [getnum, isDigit, isDecimalDigit, digitValue]
  split_ifs <;> first | rfl | omega

theorem leadingInt_digit (c : Nat) (rest : Bytes) (x : Nat) (hc : isDecimalDigit c = true) (hx : x < 1000) :
    leadingInt (c :: rest) x = leadingInt rest (x * 10 + digitValue c) := by
  simp [isDecimalDigit] at hc
  simp only [leadingInt, digitValue]
  split_ifs with h1 h2 h3
  · simp at h1; omega
  · omega
  · omega
  · rfl

theorem leadingInt_nondigit (c : Nat) (rest : Bytes) (x : Nat) (hc : isDecimalDigit c = false) :
    leadingInt (c :: rest) x = some (x, c :: rest) := by
  simp [isDecimalDigit] at hc
  simp only [leadingInt]
  split_ifs with h1 <;> first | rfl | (exfalso; simp at h1; omega)

theorem atoi_four (y1 y2 y3 y4 : Nat) (h1 : isDecimalDigit y1 = true) :
    atoi [y1, y2, y3, y4] =
      if isDecimalDigit y2 && isDecimalDigit y3 && isDecimalDigit y4 then
        some ((1000 * digitValue y1 + 100 * digitValue y2 + 10 * digitValue y3 + digitValue y4 : Nat) : Int)
      else none := by
  have hd : ∀ c, isDecimalDigit c = true → digitValue c < 10 := by
    intro c hc; simp [isDecimalDigit] at hc; simp [digitValue]; omega
  have hs : (y1 == 45) = false ∧ (y1 == 43) = false := by
    simp [isDecimalDigit] at h1; constructor <;> simp <;> omega
  have := hd y1 h1
  simp only [atoi, hs.1, hs.2, Bool.or_self, Bool.false_eq_true, if_false]
  rw [leadingInt_digit y1 _ 0 h1 (by omega)]
  cases h2 : isDecimalDigit y2
  · rw [leadingInt_nondigit y2 _ _ h2]; simp
  have := hd y2 h2
  rw [leadingInt_digit y2 _ _ h2 (by omega)]
  cases h3 : isDecimalDigit y3
  · rw [leadingInt_nondigit y3 _ _ h3]; simp
  have := hd y3 h3
  rw [leadingInt_digit y3 _ _ h3 (by omega)]
  cases h4 : isDecimalDigit y4
  · rw [leadingInt_nondigit y4 _ _ h4]; simp
  rw [leadingInt_digit y4 _ _ h4 (by omega)]
  simp [leadingInt]
  omega

theorem isDigit_zero (c : Nat) (rest : Bytes) : isDigit (c :: rest) 0 = isDecimalDigit c := by
  simp [isDigit, isDecimalDigit]

theorem daysIn_eq (m y : Nat) (h1 : 1 ≤ m) (h2 : m ≤ 12) : daysIn m (y : Int) = monthLength y m := by
  have hl : isLeap (y : Int) = gregorianLeapYear y := by
    simp only [isLeap, gregorianLeapYear]
    have e4 : ((y : Int) % 4 == 0) = (y % 4 == 0) := by
      rw [Bool.eq_iff_iff]; simp; omega
    have e100 : ((y : Int) % 100 != 0) = (y % 100 != 0) := by
      rw [Bool.eq_iff_iff]; simp; omega
    have e400 : ((y : Int) % 400 == 0) = (y % 400 == 0) := by
      rw [Bool.eq_iff_iff]; simp; omega
    rw [e4, e100, e400]
  interval_cases m <;> simp [daysIn, monthLength, daysBefore, hl]

theorem str_dash : str "-" = [45] := by decide

theorem skipLiteral_dash (v : Bytes) :
    skipLiteral (str "-") v = match v with
      | c :: rest => if c == 45 then some rest else none
      | [] => none := by
  rw [str_dash]
  rcases v with _ | ⟨c, rest⟩
  · rfl
  · by_cases h : c = 45
    · subst h; simp [skipLiteral, List.isPrefixOf]
    · have h2 : ¬ (45 = c) := fun e => h e.symm
      simp [skipLiteral, List.isPrefixOf, h, h2]

theorem timeParseDate_isSome (s : Bytes) : (timeParseDate s).isSome = isCalendarDateText s := by
  rcases s with _ | ⟨y1, _ | ⟨y2, _ | ⟨y3, _ | ⟨y4, rest⟩⟩⟩⟩
  · rfl
  · simp [timeParseDate, isCalendarDateText]
  · simp [timeParseDate, isCalendarDateText]
  · simp [timeParseDate, isCalendarDateText]
  · rcases rest with _ | ⟨h1, _ | ⟨m1, _ | ⟨m2, _ | ⟨h2, _ | ⟨d1, _ | ⟨d2, _ | ⟨x, rest⟩⟩⟩⟩⟩⟩⟩
    all_goals
      cases hy1 : isDecimalDigit y1 <;> cases hy2 : isDecimalDigit y2 <;>
      cases hy3 : isDecimalDigit y3 <;> cases hy4 : isDecimalDigit y4 <;>
      simp [timeParseDate, isCalendarDateText, isDigit_zero, hy1, hy2, hy3, hy4, atoi_four,
        skipLiteral_dash, getnum_fixed]
    all_goals
      by_cases hh1 : h1 = 45 <;> simp [hh1]
    all_goals
      cases hm1 : isDecimalDigit m1 <;> cases hm2 : isDecimalDigit m2 <;> simp [hm1, hm2]
    all_goals
      by_cases hh2 : h2 = 45 <;> simp [hh2]
    all_goals
      cases hd1 : isDecimalDigit d1 <;> cases hd2 : isDecimalDigit d2 <;> simp [hd1, hd2]
    generalize hM : digitValue m1 * 10 + digitValue m2 = M
    generalize hD : digitValue d1 * 10 + digitValue d2 = D
    have eM : 10 * digitValue m1 + digitValue m2 = M := by omega
    have eD : 10 * digitValue d1 + digitValue d2 = D := by omega
    have eM0 : (digitValue m1 = 0 ∧ digitValue m2 = 0) ↔ M = 0 := by omega
    have eD0 : (digitValue d1 = 0 ∧ digitValue d2 = 0) ↔ D = 0 := by omega
    rw [eM, eD]
    simp only [eM0, eD0]
    have eY : (1000 * (digitValue y1 : Int) + 100 * (digitValue y2 : Int) + 10 * (digitValue y3 : Int)
        + (digitValue y4 : Int)) = ((1000 * digitValue y1 + 100 * digitValue y2 + 10 * digitValue y3
        + digitValue y4 : Nat) : Int) := by push_cast; rfl
    rw [eY]
    generalize 1000 * digitValue y1 + 100 * digitValue y2 + 10 * digitValue y3 + digitValue y4 = Y
    by_cases hMr : M = 0 ∨ 12 < M
    · rw [if_pos hMr]
      rcases hMr with h | h
      · simp [h]
      · have : ¬ (M ≤ 12) := by omega
        simp [this]
    · rw [if_neg hMr, daysIn_eq M Y (by omega) (by omega)]
      have h1 : 1 ≤ M := by omega
      have h2 : M ≤ 12 := by omega
      by_cases hDr : D = 0 ∨ monthLength Y M < D
      · rw [if_pos hDr]
        rcases hDr with h | h
        · simp [h]
        · have : ¬ (D ≤ monthLength Y M) := by omega
          simp [this]
      · rw [if_neg hDr]
        have h3 : 1 ≤ D := by omega
        have h4 : D ≤ monthLength Y M := by omega
        simp [h1, h2, h3, h4]

/-- The result of `Validate`, in terms of the calendar-date format. -/
theorem validate_accepts_calendar_date (u : User) :
    u.Validate = if isCalendarDateText u.Birthday then none
      else some (GoError.sentinel UserErr.ErrMalformedBirthday) := by
  have h := timeParseDate_isSome u.Birthday
  simp only [User.Validate]
  cases hp : timeParseDate u.Birthday with
  | none => rw [hp] at h; simp [← h]
  | some d => rw [hp] at h; simp [← h]

/-- C1. `User.Validate` returns no error exactly when `Birthday` is a ten-character
string `YYYY-MM-DD` naming a real calendar date, and `ErrMalformedBirthday` for every
other string; the fields `ID`, `Name` and `Email` play no part in the result. -/
theorem validate_accepts_exactly_calendar_dates (id : UUID) (name email birthday : Bytes) :
    User.Validate ⟨id, name, email, birthday⟩ =
      if isCalendarDateText birthday then none
      else some (GoError.sentinel UserErr.ErrMalformedBirthday) :=
  validate_accepts_calendar_date ⟨id, name, email, birthday⟩

/-- The birthday strings quoted in the specification and in the tests. -/
theorem validate_examples :
    (User.mk sampleID [] [] (str "1999-12-31")).Validate = none ∧
    (User.mk sampleID [] [] (str "2000-02-29")).Validate = none ∧
    (User.mk sampleID [] [] (str "31/12/1999")).Validate =
      some (GoError.sentinel UserErr.ErrMalformedBirthday) ∧
    (User.mk sampleID [] [] (str "1999-2-3")).Validate =
      some (GoError.sentinel UserErr.ErrMalformedBirthday) ∧
    (User.mk sampleID [] [] (str "1999-02-30")).Validate =
      some (GoError.sentinel UserErr.ErrMalformedBirthday) ∧
    (User.mk sampleID [] [] (str "1900-02-29")).Validate =
      some (GoError.sentinel UserErr.ErrMalformedBirthday) ∧
    (User.mk sampleID [] [] (str "1999-12-31 ")).Validate =
      some (GoError.sentinel UserErr.ErrMalformedBirthday) ∧
    (User.mk sampleID [] [] (str "")).Validate =
      some (GoError.sentinel UserErr.ErrMalformedBirthday) := by
  decide

/-! ## The handler `createUser` -/

/-- A failing `Validate` fails with `ErrMalformedBirthday`. -/
theorem validate_error (u : User) (err : GoError) (h : u.Validate = some err) :
    err = GoError.sentinel UserErr.ErrMalformedBirthday := by
  simp only [User.Validate] at h
  cases hp : timeParseDate u.Birthday with
  | none => rw [hp] at h; exact (Option.some.inj h).symm
  | some d => rw [hp] at h; cases h

/-- C2. When the body of a POST request decodes to a `User` that fails `Validate`,
`createUser` answers with status 400 and the text of the validation error (followed
by the newline that `http.Error` appends) and makes no call on the registry, whose
state stays as it was; the decoded user is arbitrary, so this holds for all values of
`ID`, `Name` and `Email`. -/
theorem createUser_rejects_invalid_user {σ : Type} (reg : Registry σ) (st : σ) (r : Request)
    (u : User) (err : GoError)
    (hdecode : jsonDecodeUser r.Body = Except.ok u) (hvalidate : u.Validate = some err) :
    (createUser reg st ResponseWriter.new r).w.status = 400 ∧
    (createUser reg st ResponseWriter.new r).w.body = err.Error ++ [10] ∧
    (createUser reg st ResponseWriter.new r).w.body = str "user malformed birthday\n" ∧
    (createUser reg st ResponseWriter.new r).calls = [] ∧
    (createUser reg st ResponseWriter.new r).state = st := by
  have he := validate_error u err hvalidate
  subst he
  have hrun : createUser reg st ResponseWriter.new r =
      ⟨httpError ResponseWriter.new (GoError.sentinel UserErr.ErrMalformedBirthday).Error
        StatusBadRequest, st, []⟩ := by
    simp only [createUser, hdecode, hvalidate]
  rw [hrun]
  exact ⟨rfl, rfl, rfl, rfl, rfl⟩

/-- An instance of C2: the request of `TestCreateUserMalformedBirthday`. -/
theorem createUser_rejects_invalid_user_witness :
    jsonDecodeUser malformedUserRequest.Body = Except.ok malformedUser ∧
    malformedUser.Validate = some (GoError.sentinel UserErr.ErrMalformedBirthday) ∧
    (createUser mockRegistry MockRegistry.empty ResponseWriter.new malformedUserRequest).w.status
      = 400 ∧
    (createUser mockRegistry MockRegistry.empty ResponseWriter.new malformedUserRequest).calls
      = [] :=
  ⟨by rfl, by decide,
    (createUser_rejects_invalid_user mockRegistry MockRegistry.empty malformedUserRequest
      malformedUser (GoError.sentinel UserErr.ErrMalformedBirthday) (by rfl) (by decide)).1,
    (createUser_rejects_invalid_user mockRegistry MockRegistry.empty malformedUserRequest
      malformedUser (GoError.sentinel UserErr.ErrMalformedBirthday) (by rfl) (by decide)).2.2.2.1⟩

/-- C3. When the body of a POST request decodes to a `User` that passes `Validate`,
`createUser` calls `Registry.CreateUser` once, with that user, and the response
follows from the result of the call: no error gives status 204 and an empty body; an
error matching `ErrUserEmailAlreadyExists` or `ErrUserUUIDAlreadyExists` gives status
409, any other error status 500, both with the text of the error (and the newline of
`http.Error`) as body. -/
theorem createUser_response_follows_registry {σ : Type} (reg : Registry σ) (st : σ)
    (r : Request) (u : User)
    (hdecode : jsonDecodeUser r.Body = Except.ok u) (hvalidate : u.Validate = none) :
    (createUser reg st ResponseWriter.new r).calls = [RegistryCall.CreateUser u] ∧
    (createUser reg st ResponseWriter.new r).state = (reg.CreateUser st u).2 ∧
    ((reg.CreateUser st u).1 = none →
      (createUser reg st ResponseWriter.new r).w.status = 204 ∧
      (createUser reg st ResponseWriter.new r).w.body = []) ∧
    (∀ e, (reg.CreateUser st u).1 = some e →
      (errorsIs e UserErr.ErrUserEmailAlreadyExists = true ∨
        errorsIs e UserErr.ErrUserUUIDAlreadyExists = true) →
      (createUser reg st ResponseWriter.new r).w.status = 409 ∧
      (createUser reg st ResponseWriter.new r).w.body = e.Error ++ [10]) ∧
    (∀ e, (reg.CreateUser st u).1 = some e →
      errorsIs e UserErr.ErrUserEmailAlreadyExists = false →
      errorsIs e UserErr.ErrUserUUIDAlreadyExists = false →
      (createUser reg st ResponseWriter.new r).w.status = 500 ∧
      (createUser reg st ResponseWriter.new r).w.body = e.Error ++ [10]) := by
  rcases hres : reg.CreateUser st u with ⟨res, st1⟩
  cases res with
  | none =>
    simp [createUser, hdecode, hvalidate, hres]
    exact ⟨rfl, rfl⟩
  | some e0 =>
    simp only [createUser, hdecode, hvalidate, hres]
    by_cases h1 : errorsIs e0 UserErr.ErrUserEmailAlreadyExists = true
    · simp [h1]
      exact ⟨rfl, rfl⟩
    · by_cases h2 : errorsIs e0 UserErr.ErrUserUUIDAlreadyExists = true
      · simp [h1, h2]
        exact ⟨rfl, rfl⟩
      · simp [h1, h2]
        exact ⟨rfl, rfl⟩

/-- An instance of C3: the request of `TestCreateUser` on the empty registry. -/
theorem createUser_response_follows_registry_witness :
    jsonDecodeUser newUserRequest.Body = Except.ok newUser ∧
    newUser.Validate = none ∧
    (createUser mockRegistry MockRegistry.empty ResponseWriter.new newUserRequest).calls =
      [RegistryCall.CreateUser newUser] ∧
    (createUser mockRegistry MockRegistry.empty ResponseWriter.new newUserRequest).w.status = 204 :=
  ⟨by rfl, by decide,
    (createUser_response_follows_registry mockRegistry MockRegistry.empty newUserRequest newUser
      (by rfl) (by decide)).1,
    ((createUser_response_follows_registry mockRegistry MockRegistry.empty newUserRequest newUser
      (by rfl) (by decide)).2.2.1 (by rfl)).1⟩

/-! ## The handler `getUser` -/

theorem stringsSplitSlash_ne_nil (s : Bytes) : stringsSplitSlash s ≠ [] := by
  induction s with
  | nil => simp [stringsSplitSlash]
  | cons x xs ih =>
    simp only [stringsSplitSlash]
    split_ifs
    · simp
    · cases h : stringsSplitSlash xs <;> simp

theorem stringsSplitSlash_no_slash (s : Bytes) (h : 47 ∉ s) : stringsSplitSlash s = [s] := by
  induction s with
  | nil => rfl
  | cons x xs ih =>
    have hx : ¬ x = 47 := fun e => h (by simp [e])
    have hxs : 47 ∉ xs := fun e => h (by simp [e])
    simp [stringsSplitSlash, hx, ih hxs]

theorem stringsSplitSlash_tail (s : Bytes) :
    (stringsSplitSlash s).tail =
      if 47 ∈ s then stringsSplitSlash ((s.dropWhile (fun c => c != 47)).drop 1) else [] := by
  induction s with
  | nil => simp [stringsSplitSlash]
  | cons x xs ih =>
    by_cases hx : x = 47
    · subst hx
      simp [stringsSplitSlash, List.dropWhile]
    · have hne : (47 : Nat) ≠ x := fun e => hx e.symm
      have hmem : (47 ∈ x :: xs) = (47 ∈ xs) := by simp [hne]
      simp only [stringsSplitSlash, hmem]
      have hb : (x == 47) = false := by simp [hx]
      have hd : List.dropWhile (fun c => c != 47) (x :: xs) = List.dropWhile (fun c => c != 47) xs :=
        List.dropWhile_cons_of_pos (by simp [hx])
      rw [hd, ← ih]
      simp only [hb, Bool.false_eq_true, if_false]
      cases h : stringsSplitSlash xs with
      | nil => exact absurd h (stringsSplitSlash_ne_nil xs)
      | cons seg segs => rfl

theorem stringsSplitSlash_head (s : Bytes) :
    (stringsSplitSlash s).head? = some (s.takeWhile (fun c => c != 47)) := by
  induction s with
  | nil => rfl
  | cons x xs ih =>
    by_cases hx : x = 47
    · subst hx
      simp [stringsSplitSlash, List.takeWhile]
    · have hb : (x == 47) = false := by simp [hx]
      simp only [stringsSplitSlash, hb, Bool.false_eq_true, if_false]
      cases h : stringsSplitSlash xs with
      | nil => exact absurd h (stringsSplitSlash_ne_nil xs)
      | cons seg segs =>
        rw [h] at ih
        simp only [List.head?_cons, Option.some.injEq] at ih
        rw [List.takeWhile_cons_of_pos (by simp [hx]), ih]
        rfl

/-- The path has fewer than two segments exactly when it holds no slash. -/
theorem stringsSplitSlash_length_lt_two (s : Bytes) :
    (stringsSplitSlash s).length < 2 ↔ 47 ∉ s := by
  constructor
  · intro hlen hmem
    have ht := stringsSplitSlash_tail s
    rw [if_pos hmem] at ht
    have hne := stringsSplitSlash_ne_nil ((s.dropWhile (fun c => c != 47)).drop 1)
    cases hs : stringsSplitSlash s with
    | nil => exact stringsSplitSlash_ne_nil s hs
    | cons seg segs =>
      rw [hs] at ht hlen
      simp only [List.tail_cons] at ht
      cases segs with
      | nil => exact hne ht.symm
      | cons seg2 segs2 =>
        simp only [List.length_cons] at hlen
        omega
  · intro h
    rw [stringsSplitSlash_no_slash s h]
    simp

/-- The element with index 1 of the split is the second segment. -/
theorem stringsSplitSlash_second (s : Bytes) (h : 47 ∈ s) :
    (stringsSplitSlash s).getD 1 [] = secondSegment s := by
  have ht := stringsSplitSlash_tail s
  rw [if_pos h] at ht
  have hh := stringsSplitSlash_head ((s.dropWhile (fun c => c != 47)).drop 1)
  cases hs : stringsSplitSlash s with
  | nil => exact absurd hs (stringsSplitSlash_ne_nil s)
  | cons seg segs =>
    rw [hs] at ht
    simp only [List.tail_cons] at ht
    rw [← ht] at hh
    cases segs with
    | nil => simp at hh
    | cons seg2 segs2 =>
      simp at hh
      simp [secondSegment, hh]

/-- C10. A GET request whose path, with its leading and trailing slashes removed,
holds no slash (no email segment, as in `/user` and `/user/`) is answered by
`getUser` with status 400 and the body `malformed URI` followed by a newline, without
any call on the registry; for every other path `getUser` calls `Registry.GetUser`
once, with the second segment of the trimmed path. -/
theorem getUser_malformed_uri_or_lookup {σ : Type} (reg : Registry σ) (st : σ) (r : Request) :
    (47 ∉ stringsTrimSlash r.Path →
      (getUser reg st ResponseWriter.new r).w.status = 400 ∧
      (getUser reg st ResponseWriter.new r).w.body = str "malformed URI\n" ∧
      (getUser reg st ResponseWriter.new r).calls = [] ∧
      (getUser reg st ResponseWriter.new r).state = st) ∧
    (47 ∈ stringsTrimSlash r.Path →
      (getUser reg st ResponseWriter.new r).calls =
        [RegistryCall.GetUser (secondSegment (stringsTrimSlash r.Path))]) := by
  constructor
  · intro h
    have hlen := (stringsSplitSlash_length_lt_two _).2 h
    have hrun : getUser reg st ResponseWriter.new r =
        ⟨httpError ResponseWriter.new (str "malformed URI") StatusBadRequest, st, []⟩ := by
      simp only [getUser, if_pos hlen]
    rw [hrun]
    exact ⟨rfl, rfl, rfl, rfl⟩
  · intro h
    have hlen : ¬ (stringsSplitSlash (stringsTrimSlash r.Path)).length < 2 :=
      fun hl => (stringsSplitSlash_length_lt_two _).1 hl h
    simp only [getUser, if_neg hlen, stringsSplitSlash_second _ h]
    rcases reg.GetUser st (secondSegment (stringsTrimSlash r.Path)) with ⟨res, st1⟩
    cases res with
    | error err => dsimp only; split_ifs <;> rfl
    | ok u => rfl

/-- Instances of C10: `/user` and `/user/` are malformed, `/user/test@example.com`
is looked up. -/
theorem getUser_malformed_uri_or_lookup_witness :
    47 ∉ stringsTrimSlash (str "/user/") ∧
    (getUser mockRegistry testRegistry ResponseWriter.new ⟨str "GET", str "/user/", []⟩).w.status
      = 400 ∧
    (getUser mockRegistry testRegistry ResponseWriter.new ⟨str "GET", str "/user", []⟩).w.body
      = str "malformed URI\n" ∧
    47 ∈ stringsTrimSlash (str "/user/test@example.com") ∧
    (getUser mockRegistry testRegistry ResponseWriter.new
      ⟨str "GET", str "/user/test@example.com", []⟩).calls =
      [RegistryCall.GetUser (str "test@example.com")] :=
  ⟨by decide,
    ((getUser_malformed_uri_or_lookup mockRegistry testRegistry
      ⟨str "GET", str "/user/", []⟩).1 (by decide)).1,
    ((getUser_malformed_uri_or_lookup mockRegistry testRegistry
      ⟨str "GET", str "/user", []⟩).1 (by decide)).2.1,
    by decide,
    (getUser_malformed_uri_or_lookup mockRegistry testRegistry
      ⟨str "GET", str "/user/test@example.com", []⟩).2 (by decide)⟩

theorem trimLeftByte_of_head (c : Nat) (s : Bytes) (h : s.head? ≠ some c) :
    trimLeftByte c s = s := by
  cases s with
  | nil => rfl
  | cons x xs =>
    have hx : ¬ x = c := fun e => h (by simp [e])
    simp [trimLeftByte, hx]

theorem str_user_path : str "/user/" = [47, 117, 115, 101, 114, 47] := by decide

/-- The path `/user/` followed by a non-empty email without slash trims to `user/`
followed by the email. -/
theorem stringsTrimSlash_user_path (email : Bytes) (hne : email ≠ []) (hs : 47 ∉ email) :
    stringsTrimSlash (str "/user/" ++ email) = [117, 115, 101, 114, 47] ++ email := by
  have h1 : trimLeftByte 47 (str "/user/" ++ email) = [117, 115, 101, 114, 47] ++ email := by
    rw [str_user_path]
    simp [trimLeftByte]
  have h2 : (([117, 115, 101, 114, 47] ++ email).reverse).head? ≠ some 47 := by
    rw [List.head?_reverse, List.getLast?_append_of_ne_nil _ hne]
    intro h
    exact hs (List.mem_of_getLast?_eq_some h)
  rw [stringsTrimSlash, h1, trimLeftByte_of_head _ _ h2, List.reverse_reverse]

/-- The segments of such a path are `user` and the email. -/
theorem stringsSplitSlash_user_path (email : Bytes) (hs : 47 ∉ email) :
    stringsSplitSlash ([117, 115, 101, 114, 47] ++ email) = [[117, 115, 101, 114], email] := by
  simp [stringsSplitSlash, stringsSplitSlash_no_slash email hs]

/-- The claim C4 as worded fails for an email with a slash and for the empty email:
`test@example.com/x` is absent from the registry of `TestGetUser`, yet
`GET /user/test@example.com/x` is answered with status 200 (the user stored under
`test@example.com`); the empty email is absent from the empty registry, yet
`GET /user/` is answered with status 400. -/
theorem getUser_absent_email_counterexample :
    (testRegistry.users (str "test@example.com/x") = none ∧
      (getUser mockRegistry testRegistry ResponseWriter.new
        ⟨str "GET", str "/user/" ++ str "test@example.com/x", []⟩).w.status = 200) ∧
    (MockRegistry.empty.users [] = none ∧
      (getUser mockRegistry MockRegistry.empty ResponseWriter.new
        ⟨str "GET", str "/user/" ++ [], []⟩).w.status = 400) := by
  decide

/-- C4, amended. When the path of a GET request carries an email segment and
`Registry.GetUser` fails, `getUser` answers with status 404 if the error matches
`ErrUserNotFound` and with status 500 otherwise, in both cases with the text of the
error (followed by the newline of `http.Error`) as body.  In particular, for every
email that is not empty, holds no slash and is absent from the in-memory registry,
`GET /user/{email}` is answered with status 404 and the body `user not found`
followed by a newline. -/
theorem getUser_lookup_failure :
    (∀ (σ : Type) (reg : Registry σ) (st st1 : σ) (r : Request) (err : GoError),
      47 ∈ stringsTrimSlash r.Path →
      reg.GetUser st (secondSegment (stringsTrimSlash r.Path)) = (Except.error err, st1) →
      (getUser reg st ResponseWriter.new r).w.status =
        (if errorsIs err UserErr.ErrUserNotFound then 404 else 500) ∧
      (getUser reg st ResponseWriter.new r).w.body = err.Error ++ [10]) ∧
    (∀ (m : MockRegistry) (email method body : Bytes),
      email ≠ [] → 47 ∉ email → m.users email = none →
      (getUser mockRegistry m ResponseWriter.new ⟨method, str "/user/" ++ email, body⟩).w.status
        = 404 ∧
      (getUser mockRegistry m ResponseWriter.new ⟨method, str "/user/" ++ email, body⟩).w.body
        = str "user not found\n") := by
  constructor
  · intro σ reg st st1 r err hmem hget
    have hlen : ¬ (stringsSplitSlash (stringsTrimSlash r.Path)).length < 2 :=
      fun hl => (stringsSplitSlash_length_lt_two _).1 hl hmem
    simp only [getUser, if_neg hlen, stringsSplitSlash_second _ hmem, hget]
    by_cases hnf : errorsIs err UserErr.ErrUserNotFound = true
    · rw [if_pos hnf, if_pos hnf]; exact ⟨rfl, rfl⟩
    · rw [if_neg hnf, if_neg hnf]; exact ⟨rfl, rfl⟩
  · intro m email method body hne hs habsent
    have hrun : getUser mockRegistry m ResponseWriter.new ⟨method, str "/user/" ++ email, body⟩ =
        ⟨httpError ResponseWriter.new (GoError.sentinel UserErr.ErrUserNotFound).Error
          StatusNotFound, m, [RegistryCall.GetUser email]⟩ := by
      simp only [getUser, stringsTrimSlash_user_path email hne hs,
        stringsSplitSlash_user_path email hs]
      simp [mockRegistry, MockRegistry.GetUser, habsent, errorsIs]
    rw [hrun]
    exact ⟨rfl, rfl⟩

/-- Instances of C4: a registry out of reach gives status 500 with the text of its
error, and the request of `TestGetUserNotFound` gives status 404. -/
theorem getUser_lookup_failure_witness :
    (47 ∈ stringsTrimSlash (str "/user/test@example.com") ∧
      (getUser brokenRegistry () ResponseWriter.new
        ⟨str "GET", str "/user/test@example.com", []⟩).w.status = 500 ∧
      (getUser brokenRegistry () ResponseWriter.new
        ⟨str "GET", str "/user/test@example.com", []⟩).w.body = str "connection refused\n") ∧
    (str "notfound@example.com" ≠ [] ∧ 47 ∉ str "notfound@example.com" ∧
      MockRegistry.empty.users (str "notfound@example.com") = none ∧
      (getUser mockRegistry MockRegistry.empty ResponseWriter.new
        ⟨str "GET", str "/user/" ++ str "notfound@example.com", []⟩).w.status = 404 ∧
      (getUser mockRegistry MockRegistry.empty ResponseWriter.new
        ⟨str "GET", str "/user/" ++ str "notfound@example.com", []⟩).w.body
        = str "user not found\n") :=
  ⟨⟨by decide,
      getUser_lookup_failure.1 Unit brokenRegistry () () ⟨str "GET", str "/user/test@example.com", []⟩
        (GoError.driver (DriverError.other (str "connection refused"))) (by decide) rfl⟩,
    ⟨by decide, by decide, rfl,
      getUser_lookup_failure.2 MockRegistry.empty (str "notfound@example.com") (str "GET") []
        (by decide) (by decide) rfl⟩⟩

/-! ## The route table of `CreateAPI` -/

theorem str_user : str "/user" = [47, 117, 115, 101, 114] := by decide

/-- A path that continues after `/user/` is not the path `/user`. -/
theorem user_path_ne (email : Bytes) : (str "/user/" ++ email == str "/user") = false := by
  rw [str_user_path, str_user]
  cases email <;> rfl

/-- C5, as the code has it.  The route table of `CreateAPI` holds the path `/user`
only, so a GET request to `/user/{email}` never reaches `getUser`: whatever the
email and the registry, the router answers by itself (404 `page not found`, or a
redirect for a path not in canonical form) and the registry is not called.  So it is
for the request of `TestGetUser` sent through the router: the user is stored, and
the answer is 404. -/
theorem router_never_reaches_getUser {σ : Type} (reg : Registry σ) (st : σ)
    (email body : Bytes) :
    dispatch CreateAPI ⟨str "GET", str "/user/" ++ email, body⟩ ≠ Dispatch.handler Handler.getUser ∧
    (serveHTTP reg st ResponseWriter.new ⟨str "GET", str "/user/" ++ email, body⟩).calls = [] ∧
    ((serveHTTP reg st ResponseWriter.new ⟨str "GET", str "/user/" ++ email, body⟩).w.status = 404 ∨
      (serveHTTP reg st ResponseWriter.new ⟨str "GET", str "/user/" ++ email, body⟩).w.status = 301) ∧
    testRegistry.users (str "test@example.com") = some testUser ∧
    (serveHTTP mockRegistry testRegistry ResponseWriter.new
      ⟨str "GET", str "/user/" ++ str "test@example.com", []⟩).w.status = 404 ∧
    (serveHTTP mockRegistry testRegistry ResponseWriter.new
      ⟨str "GET", str "/user/" ++ str "test@example.com", []⟩).w.body = str "404 page not found\n" := by
  have hd : dispatch CreateAPI ⟨str "GET", str "/user/" ++ email, body⟩ =
      Dispatch.redirect (cleanPath (str "/user/" ++ email)) ∨
      dispatch CreateAPI ⟨str "GET", str "/user/" ++ email, body⟩ = Dispatch.notFound := by
    simp only [dispatch]
    split_ifs
    · exact Or.inl rfl
    · right
      simp [CreateAPI, matchRoutes, user_path_ne]
  refine ⟨?_, ?_, ?_, by decide, by decide, by decide⟩
  · rcases hd with h | h <;> rw [h] <;> simp
  · rcases hd with h | h <;> simp only [serveHTTP, h]
  · rcases hd with h | h
    · right; simp only [serveHTTP, h]; rfl
    · left; simp only [serveHTTP, h]; rfl

/-! ## Package `database` -/

/-- The report of a unique violation, read through `errors.As`. -/
theorem reportsUniqueViolation_eq (err : DriverError) (name : String) :
    reportsUniqueViolation err name =
      match err.asPgError with
      | none => false
      | some pe => pe.Code == str "23505" && pe.ConstraintName == str name := by
  induction err with
  | pg pe => rfl
  | other msg => rfl
  | wrapped msg inner ih => simpa [reportsUniqueViolation, DriverError.asPgError] using ih

/-- C6. Whatever the outcome of the insert statement, `(*DB).CreateUser` returns no
error exactly when the insert succeeded, `ErrUserEmailAlreadyExists` exactly when the
database reports a unique violation (SQLSTATE 23505) on `users_email_key`,
`ErrUserUUIDAlreadyExists` exactly when it reports one on `users_id_key`, and for
every other failure an error that matches neither of the two.  In particular a
`*pgconn.PgError` with code 23505 on `users_email_key`, bare or wrapped by the
driver, gives `ErrUserEmailAlreadyExists`, and one on `users_id_key` gives
`ErrUserUUIDAlreadyExists`; an error that is no `*pgconn.PgError` gives
`unexpected error: ` followed by its text, a `*pgconn.PgError` with another code
gives `database error: ` followed by its text, both without `Unwrap`, and one with
code 23505 on another constraint gives `unique constraint violation: ` followed by
its text, wrapping the driver error. -/
theorem dbCreateUser_classifies_outcome (exec : Option DriverError) (u : User) :
    ((DB.CreateUser exec u = none ↔ exec = none) ∧
    (DB.CreateUser exec u = some (GoError.sentinel UserErr.ErrUserEmailAlreadyExists) ↔
      uniqueViolationOn exec "users_email_key" = true) ∧
    (DB.CreateUser exec u = some (GoError.sentinel UserErr.ErrUserUUIDAlreadyExists) ↔
      uniqueViolationOn exec "users_id_key" = true) ∧
    (exec ≠ none → uniqueViolationOn exec "users_email_key" = false →
      uniqueViolationOn exec "users_id_key" = false →
      ∃ e, DB.CreateUser exec u = some e ∧
        errorsIs e UserErr.ErrUserEmailAlreadyExists = false ∧
        errorsIs e UserErr.ErrUserUUIDAlreadyExists = false)) ∧
    (∀ sev msg : Bytes,
      DB.CreateUser (some (DriverError.pg ⟨sev, str "23505", msg, str "users_email_key"⟩)) u =
        some (GoError.sentinel UserErr.ErrUserEmailAlreadyExists) ∧
      DB.CreateUser (some (DriverError.pg ⟨sev, str "23505", msg, str "users_id_key"⟩)) u =
        some (GoError.sentinel UserErr.ErrUserUUIDAlreadyExists)) ∧
    (∀ text sev msg : Bytes,
      DB.CreateUser
          (some (DriverError.wrapped text
            (DriverError.pg ⟨sev, str "23505", msg, str "users_email_key"⟩))) u =
        some (GoError.sentinel UserErr.ErrUserEmailAlreadyExists) ∧
      DB.CreateUser
          (some (DriverError.wrapped text
            (DriverError.pg ⟨sev, str "23505", msg, str "users_id_key"⟩))) u =
        some (GoError.sentinel UserErr.ErrUserUUIDAlreadyExists)) ∧
    (∀ msg : Bytes,
      DB.CreateUser (some (DriverError.other msg)) u =
        some (GoError.errorString (str "unexpected error: " ++ msg))) ∧
    (∀ pe : PgError, pe.Code ≠ str "23505" →
      DB.CreateUser (some (DriverError.pg pe)) u =
        some (GoError.errorString (str "database error: " ++ pe.Error))) ∧
    (∀ pe : PgError, pe.Code = str "23505" →
      pe.ConstraintName ≠ str "users_email_key" → pe.ConstraintName ≠ str "users_id_key" →
      DB.CreateUser (some (DriverError.pg pe)) u =
        some (GoError.wrapError (str "unique constraint violation: " ++ pe.Error)
          (GoError.driver (DriverError.pg pe)))) := by
  have hne : str "users_email_key" ≠ str "users_id_key" := by decide
  refine ⟨?_, ?_, ?_, ?_, ?_, ?_⟩
  · cases exec with
    | none => simp [DB.CreateUser, uniqueViolationOn]
    | some err =>
      simp only [DB.CreateUser, uniqueViolationOn, reportsUniqueViolation_eq]
      cases hpg : err.asPgError with
      | none => simp [errorsIs]
      | some pe =>
        by_cases hcode : pe.Code = str "23505"
        · by_cases hemail : pe.ConstraintName = str "users_email_key"
          · simp [hcode, hemail, hne, errorsIs]
          · by_cases hid : pe.ConstraintName = str "users_id_key"
            · simp [hcode, hid, hne.symm, errorsIs]
            · simp [hcode, hemail, hid, errorsIs]
        · simp [hcode, errorsIs]
  · intro sev msg
    exact ⟨by simp [DB.CreateUser, DriverError.asPgError],
      by simp [DB.CreateUser, DriverError.asPgError, hne.symm]⟩
  · intro text sev msg
    exact ⟨by simp [DB.CreateUser, DriverError.asPgError],
      by simp [DB.CreateUser, DriverError.asPgError, hne.symm]⟩
  · intro msg
    rfl
  · intro pe hcode
    simp [DB.CreateUser, DriverError.asPgError, DriverError.Error, hcode]
  · intro pe hcode hemail hid
    simp [DB.CreateUser, DriverError.asPgError, DriverError.Error, hcode, hemail, hid]

/-- An instance of C6: a unique violation on an unrecognised constraint matches
neither sentinel, one on `users_email_key` gives `ErrUserEmailAlreadyExists`, one on
`users_id_key`, here wrapped by the driver, gives `ErrUserUUIDAlreadyExists`, a
database error with another code gives an error without `Unwrap`, and each of the
two sentinels matches itself and not the other. -/
theorem dbCreateUser_classifies_outcome_witness :
    (∃ e, DB.CreateUser
        (some (DriverError.pg ⟨str "ERROR", str "23505", str "duplicate key", str "users_name_key"⟩))
        newUser = some e ∧
      errorsIs e UserErr.ErrUserEmailAlreadyExists = false ∧
      errorsIs e UserErr.ErrUserUUIDAlreadyExists = false) ∧
    DB.CreateUser
        (some (DriverError.pg ⟨str "ERROR", str "23505", str "duplicate key", str "users_email_key"⟩))
        newUser = some (GoError.sentinel UserErr.ErrUserEmailAlreadyExists) ∧
    DB.CreateUser
        (some (DriverError.wrapped (str "insert failed")
          (DriverError.pg ⟨str "ERROR", str "23505", str "duplicate key", str "users_id_key"⟩)))
        newUser = some (GoError.sentinel UserErr.ErrUserUUIDAlreadyExists) ∧
    DB.CreateUser (some (DriverError.pg undefinedTableError)) newUser =
      some (GoError.errorString (str "database error: " ++ undefinedTableError.Error)) ∧
    DB.CreateUser none newUser = none ∧
    errorsIs (GoError.sentinel UserErr.ErrUserEmailAlreadyExists)
      UserErr.ErrUserEmailAlreadyExists = true ∧
    errorsIs (GoError.sentinel UserErr.ErrUserUUIDAlreadyExists)
      UserErr.ErrUserUUIDAlreadyExists = true ∧
    errorsIs (GoError.sentinel UserErr.ErrUserEmailAlreadyExists)
      UserErr.ErrUserUUIDAlreadyExists = false :=
  ⟨(dbCreateUser_classifies_outcome
      (some (DriverError.pg ⟨str "ERROR", str "23505", str "duplicate key", str "users_name_key"⟩))
      newUser).1.2.2.2 (by decide) (by decide) (by decide),
    (dbCreateUser_classifies_outcome
      (some (DriverError.pg ⟨str "ERROR", str "23505", str "duplicate key", str "users_email_key"⟩))
      newUser).1.2.1.2 (by decide),
    (dbCreateUser_classifies_outcome
      (some (DriverError.wrapped (str "insert failed")
        (DriverError.pg ⟨str "ERROR", str "23505", str "duplicate key", str "users_id_key"⟩)))
      newUser).1.2.2.1.2 (by decide),
    (dbCreateUser_classifies_outcome none newUser).2.2.2.2.1 undefinedTableError (by decide),
    (dbCreateUser_classifies_outcome none newUser).1.1.2 rfl,
    by decide, by decide, by decide⟩

/-- C7, as the code has it.  `(*DB).GetUser` takes `rows.Next() == false` for "no
row" without asking `rows.Err()`: when the query was issued without error and the
reading of the rows failed before the first row, whatever the error `e`, the result
is `ErrUserNotFound` and `e` is lost. -/
theorem dbGetUser_swallows_read_failure (e : DriverError) (email : Bytes) :
    DB.GetUser (Except.ok ⟨[], some e⟩) email =
      Except.error (GoError.sentinel UserErr.ErrUserNotFound) ∧
    DB.GetUser (Except.ok ⟨[], some (DriverError.other (str "unexpected EOF"))⟩)
      (str "test@example.com") = Except.error (GoError.sentinel UserErr.ErrUserNotFound) :=
  ⟨rfl, rfl⟩

/-! ## JSON encoding -/

/-- Bytes of `htmlSafeSet` are written as they are. -/
theorem appendStringLoop_safe (s : Bytes) :
    ∀ fuel, s.length ≤ fuel → (∀ b ∈ s, htmlSafeSet b = true) → appendStringLoop fuel s = s := by
  induction s with
  | nil => intro fuel _ _; cases fuel <;> rfl
  | cons b rest ih =>
    intro fuel hfuel hsafe
    cases fuel with
    | zero => simp at hfuel
    | succ fuel =>
      have hb : htmlSafeSet b = true := hsafe b (by simp)
      have hlt : b < 0x80 := by
        simp only [htmlSafeSet, Bool.and_eq_true, decide_eq_true_eq] at hb
        omega
      have hrest := ih fuel (by simpa using hfuel) (fun c hc => hsafe c (by simp [hc]))
      simp only [appendStringLoop, if_pos hlt, hb, if_true, hrest]
      rfl

theorem appendString_safe (s : Bytes) (h : ∀ b ∈ s, htmlSafeSet b = true) :
    appendString s = [34] ++ s ++ [34] := by
  rw [appendString, appendStringLoop_safe s s.length (Nat.le_refl _) h]

/-- The sixteen hexadecimal digits are lower-case digits of `htmlSafeSet`. -/
theorem hexTable_digit (n : Nat) (h : n < 16) :
    htmlSafeSet (hexDigit n) = true ∧
    ((48 ≤ hexDigit n ∧ hexDigit n ≤ 57) ∨
      (97 ≤ hexDigit n ∧ hexDigit n ≤ 102)) := by
  interval_cases n <;> decide

theorem uuid_bytes_eq (u : UUID) :
    ∃ b0 b1 b2 b3 b4 b5 b6 b7 b8 b9 b10 b11 b12 b13 b14 b15,
      u.bytes = [b0, b1, b2, b3, b4, b5, b6, b7, b8, b9, b10, b11, b12, b13, b14, b15] := by
  have h := u.size_eq
  rcases hb : u.bytes with _ | ⟨b0, _ | ⟨b1, _ | ⟨b2, _ | ⟨b3, _ | ⟨b4, _ | ⟨b5, _ | ⟨b6, _ | ⟨b7,
    _ | ⟨b8, _ | ⟨b9, _ | ⟨b10, _ | ⟨b11, _ | ⟨b12, _ | ⟨b13, _ | ⟨b14, _ | ⟨b15, _ | ⟨b16, rest⟩⟩⟩⟩⟩⟩⟩⟩⟩⟩⟩⟩⟩⟩⟩⟩⟩ <;>
    rw [hb] at h <;> simp at h
  exact ⟨b0, b1, b2, b3, b4, b5, b6, b7, b8, b9, b10, b11, b12, b13, b14, b15, rfl⟩

/-- The text of a UUID, digit by digit. -/
theorem uuid_string_eq (u : UUID) (b0 b1 b2 b3 b4 b5 b6 b7 b8 b9 b10 b11 b12 b13 b14 b15 : Nat)
    (hb : u.bytes = [b0, b1, b2, b3, b4, b5, b6, b7, b8, b9, b10, b11, b12, b13, b14, b15]) :
    u.String =
      [hexDigit (b0 / 16), hexDigit (b0 % 16), hexDigit (b1 / 16),
        hexDigit (b1 % 16), hexDigit (b2 / 16), hexDigit (b2 % 16),
        hexDigit (b3 / 16), hexDigit (b3 % 16), 45,
        hexDigit (b4 / 16), hexDigit (b4 % 16), hexDigit (b5 / 16),
        hexDigit (b5 % 16), 45,
        hexDigit (b6 / 16), hexDigit (b6 % 16), hexDigit (b7 / 16),
        hexDigit (b7 % 16), 45,
        hexDigit (b8 / 16), hexDigit (b8 % 16), hexDigit (b9 / 16),
        hexDigit (b9 % 16), 45,
        hexDigit (b10 / 16), hexDigit (b10 % 16), hexDigit (b11 / 16),
        hexDigit (b11 % 16), hexDigit (b12 / 16), hexDigit (b12 % 16),
        hexDigit (b13 / 16), hexDigit (b13 % 16), hexDigit (b14 / 16),
        hexDigit (b14 % 16), hexDigit (b15 / 16), hexDigit (b15 % 16)] := by
  rw [UUID.String, hb]
  rfl

/-- The text of a UUID is in canonical form. -/
theorem uuid_string_canonical (u : UUID) : isCanonicalUUIDText u.String = true := by
  obtain ⟨b0, b1, b2, b3, b4, b5, b6, b7, b8, b9, b10, b11, b12, b13, b14, b15, hb⟩ :=
    uuid_bytes_eq u
  have hlt : ∀ b ∈ u.bytes, b < 256 := u.byte_lt
  rw [hb] at hlt
  simp only [List.mem_cons, List.mem_singleton, forall_eq_or_imp, forall_eq] at hlt
  have hhi : ∀ b, b < 256 → ((48 ≤ hexDigit (b / 16) ∧ hexDigit (b / 16) ≤ 57) ∨
      (97 ≤ hexDigit (b / 16) ∧ hexDigit (b / 16) ≤ 102)) :=
    fun b hb => (hexTable_digit (b / 16) (by omega)).2
  have hlo : ∀ b, ((48 ≤ hexDigit (b % 16) ∧ hexDigit (b % 16) ≤ 57) ∨
      (97 ≤ hexDigit (b % 16) ∧ hexDigit (b % 16) ≤ 102)) :=
    fun b => (hexTable_digit (b % 16) (by omega)).2
  rw [uuid_string_eq u _ _ _ _ _ _ _ _ _ _ _ _ _ _ _ _ hb]
  simp only [isCanonicalUUIDText, Bool.and_eq_true, List.all_eq_true, List.mem_range]
  refine ⟨by rfl, ?_⟩
  intro i hi
  interval_cases i <;>
    simp [hhi, hlo, hlt.1, hlt.2.1, hlt.2.2.1, hlt.2.2.2.1, hlt.2.2.2.2.1, hlt.2.2.2.2.2.1,
      hlt.2.2.2.2.2.2.1, hlt.2.2.2.2.2.2.2.1, hlt.2.2.2.2.2.2.2.2.1, hlt.2.2.2.2.2.2.2.2.2.1,
      hlt.2.2.2.2.2.2.2.2.2.2.1, hlt.2.2.2.2.2.2.2.2.2.2.2.1, hlt.2.2.2.2.2.2.2.2.2.2.2.2.1,
      hlt.2.2.2.2.2.2.2.2.2.2.2.2.2.1, hlt.2.2.2.2.2.2.2.2.2.2.2.2.2.2.1,
      hlt.2.2.2.2.2.2.2.2.2.2.2.2.2.2.2.1]

/-! ## UUID text: parsing undoes printing -/

theorem fromHexChar_hexDigit (n : Nat) (h : n < 16) : fromHexChar (hexDigit n) = some n := by
  interval_cases n <;> rfl

theorem hexDecode_hexByte (b : Nat) (hb : b < 256) (rest : Bytes) :
    hexDecode (hexDigit (b / 16) :: hexDigit (b % 16) :: rest) =
      (hexDecode rest).map fun bs => b :: bs := by
  rw [hexDecode, fromHexChar_hexDigit _ (by omega), fromHexChar_hexDigit _ (by omega)]
  cases hexDecode rest with
  | none => rfl
  | some bs =>
    simp only [Option.map_some']
    congr 2
    omega

/-- Parsing the text of a UUID gives the UUID back. -/
theorem uuid_unmarshalText_string (u : UUID) : UUID.UnmarshalText u.String = some u := by
  obtain ⟨b0, b1, b2, b3, b4, b5, b6, b7, b8, b9, b10, b11, b12, b13, b14, b15, hb⟩ :=
    uuid_bytes_eq u
  have hlt : ∀ b ∈ u.bytes, b < 256 := u.byte_lt
  rw [hb] at hlt
  simp only [List.mem_cons, List.mem_singleton, forall_eq_or_imp, forall_eq] at hlt
  obtain ⟨h0, h1, h2, h3, h4, h5, h6, h7, h8, h9, h10, h11, h12, h13, h14, h15, -⟩ := hlt
  rw [uuid_string_eq u _ _ _ _ _ _ _ _ _ _ _ _ _ _ _ _ hb]
  have hbytes : UUID.ofBytes [b0, b1, b2, b3, b4, b5, b6, b7, b8, b9, b10, b11, b12, b13, b14, b15]
      = some u := by
    unfold UUID.ofBytes
    rw [dif_pos ⟨by rfl, by rw [← hb]; exact u.byte_lt⟩]
    cases u
    simp only at hb
    subst hb
    rfl
  have hnil : hexDecode [] = some [] := rfl
  unfold UUID.UnmarshalText
  rw [if_neg (by simp), if_pos (by rfl)]
  unfold UUID.decodeCanonical
  rw [if_neg (by simp [List.getD])]
  simp only [List.take, List.drop, hexDecode_hexByte, h0, h1, h2, h3, h4, h5, h6, h7, h8, h9, h10,
    h11, h12, h13, h14, h15, hnil, Option.map_some', List.cons_append, List.nil_append]
  exact hbytes
/-! ## UTF-8 -/

/-- The shape of a valid multi-byte encoding at the head of a string. -/
theorem decodeRune_valid (s0 : Nat) (t : Bytes) (h80 : 0x80 ≤ s0)
    (hv : ¬ ((decodeRune (s0 :: t)).1 = RuneError ∧ (decodeRune (s0 :: t)).2 = 1)) :
    (∃ b1 t1, t = b1 :: t1 ∧ 0xC2 ≤ s0 ∧ s0 ≤ 0xDF ∧ 0x80 ≤ b1 ∧ b1 ≤ 0xBF ∧
      decodeRune (s0 :: t) = (s0 % 32 * 64 + b1 % 64, 2)) ∨
    (∃ b1 b2 t2, t = b1 :: b2 :: t2 ∧ 0xE0 ≤ s0 ∧ s0 ≤ 0xEF ∧ 0x80 ≤ b1 ∧ b1 ≤ 0xBF ∧
      (s0 = 0xE0 → 0xA0 ≤ b1) ∧ (s0 = 0xED → b1 ≤ 0x9F) ∧ 0x80 ≤ b2 ∧ b2 ≤ 0xBF ∧
      decodeRune (s0 :: t) = (s0 % 16 * 4096 + b1 % 64 * 64 + b2 % 64, 3)) ∨
    (∃ b1 b2 b3 t3, t = b1 :: b2 :: b3 :: t3 ∧ 0xF0 ≤ s0 ∧ s0 ≤ 0xF4 ∧ 0x80 ≤ b1 ∧ b1 ≤ 0xBF ∧
      (s0 = 0xF0 → 0x90 ≤ b1) ∧ (s0 = 0xF4 → b1 ≤ 0x8F) ∧ 0x80 ≤ b2 ∧ b2 ≤ 0xBF ∧
      0x80 ≤ b3 ∧ b3 ≤ 0xBF ∧
      decodeRune (s0 :: t) =
        (s0 % 8 * 262144 + b1 % 64 * 4096 + b2 % 64 * 64 + b3 % 64, 4)) := by
  have hn : ¬ s0 < 0x80 := by omega
  by_cases h2 : 0xC2 ≤ s0 ∧ s0 ≤ 0xDF
  · have hsz : utf8Size s0 = 2 := by simp [utf8Size, h2.1, h2.2]
    have hlo : acceptLo s0 = 0x80 := by
      simp only [acceptLo]; split_ifs <;> simp_all
    have hhi : acceptHi s0 = 0xBF := by
      simp only [acceptHi]; split_ifs <;> simp_all
    left
    rcases t with _ | ⟨b1, t1⟩
    · simp [decodeRune, hn, hsz] at hv
    · by_cases hb : b1 < 0x80 ∨ 0xBF < b1
      · exfalso; apply hv
        simp [decodeRune, hn, hsz, hlo, hhi, hb]
      · refine ⟨b1, t1, rfl, h2.1, h2.2, by omega, by omega, ?_⟩
        simp [decodeRune, hn, hsz, hlo, hhi, hb]
  · by_cases h3 : 0xE0 ≤ s0 ∧ s0 ≤ 0xEF
    · have hsz : utf8Size s0 = 3 := by
        unfold utf8Size
        rw [if_neg (by simp; omega), if_pos (by simp; omega)]
      have hlo : acceptLo s0 = if s0 = 0xE0 then 0xA0 else 0x80 := by
        simp only [acceptLo]; split_ifs <;> simp_all
      have hhi : acceptHi s0 = if s0 = 0xED then 0x9F else 0xBF := by
        simp only [acceptHi]; split_ifs <;> simp_all
      right; left
      rcases t with _ | ⟨b1, _ | ⟨b2, t2⟩⟩
      · simp [decodeRune, hn, hsz] at hv
      · simp [decodeRune, hn, hsz] at hv
      · by_cases hb1 : b1 < acceptLo s0 ∨ acceptHi s0 < b1
        · exfalso; apply hv
          simp [decodeRune, hn, hsz, hb1]
        · by_cases hb2 : b2 < 0x80 ∨ 0xBF < b2
          · exfalso; apply hv
            simp [decodeRune, hn, hsz, hb1, hb2]
          · have e : decodeRune (s0 :: b1 :: b2 :: t2) =
                (s0 % 16 * 4096 + b1 % 64 * 64 + b2 % 64, 3) := by
              simp [decodeRune, hn, hsz, hb1, hb2]
            rw [hlo, hhi] at hb1
            refine ⟨b1, b2, t2, rfl, h3.1, h3.2, ?_, ?_, ?_, ?_, by omega, by omega, e⟩
            · split_ifs at hb1 <;> omega
            · split_ifs at hb1 <;> omega
            · intro h; rw [if_pos h] at hb1; omega
            · intro h; rw [if_pos h] at hb1; split_ifs at hb1 <;> omega
    · by_cases h4 : 0xF0 ≤ s0 ∧ s0 ≤ 0xF4
      · have hsz : utf8Size s0 = 4 := by
          unfold utf8Size
          rw [if_neg (by simp; omega), if_neg (by simp; omega), if_pos (by simp; omega)]
        have hlo : acceptLo s0 = if s0 = 0xF0 then 0x90 else 0x80 := by
          simp only [acceptLo]; split_ifs <;> simp_all
        have hhi : acceptHi s0 = if s0 = 0xF4 then 0x8F else 0xBF := by
          simp only [acceptHi]; split_ifs <;> simp_all
        right; right
        rcases t with _ | ⟨b1, _ | ⟨b2, _ | ⟨b3, t3⟩⟩⟩
        · simp [decodeRune, hn, hsz] at hv
        · simp [decodeRune, hn, hsz] at hv
        · simp [decodeRune, hn, hsz] at hv
        · by_cases hb1 : b1 < acceptLo s0 ∨ acceptHi s0 < b1
          · exfalso; apply hv
            simp [decodeRune, hn, hsz, hb1]
          · by_cases hb2 : b2 < 0x80 ∨ 0xBF < b2
            · exfalso; apply hv
              simp [decodeRune, hn, hsz, hb1, hb2]
            · by_cases hb3 : b3 < 0x80 ∨ 0xBF < b3
              · exfalso; apply hv
                simp [decodeRune, hn, hsz, hb1, hb2, hb3]
              · have e : decodeRune (s0 :: b1 :: b2 :: b3 :: t3) =
                    (s0 % 8 * 262144 + b1 % 64 * 4096 + b2 % 64 * 64 + b3 % 64, 4) := by
                  simp [decodeRune, hn, hsz, hb1, hb2, hb3]
                rw [hlo, hhi] at hb1
                refine ⟨b1, b2, b3, t3, rfl, h4.1, h4.2, ?_, ?_, ?_, ?_, by omega, by omega,
                  by omega, by omega, e⟩
                · split_ifs at hb1 <;> omega
                · split_ifs at hb1 <;> omega
                · intro h; rw [if_pos h] at hb1; omega
                · intro h; rw [if_pos h] at hb1; split_ifs at hb1 <;> omega
      · exfalso; apply hv
        have hsz : utf8Size s0 = 0 := by
          unfold utf8Size
          rw [if_neg (by simp; omega), if_neg (by simp; omega), if_neg (by simp; omega)]
        simp [decodeRune, hn, hsz]
theorem decodeRune_two (s0 b1 : Nat) (x : Bytes) (h1 : 0xC2 ≤ s0) (h2 : s0 ≤ 0xDF)
    (h3 : 0x80 ≤ b1) (h4 : b1 ≤ 0xBF) :
    decodeRune (s0 :: b1 :: x) = (s0 % 32 * 64 + b1 % 64, 2) := by
  have hn : ¬ s0 < 0x80 := by omega
  have hsz : utf8Size s0 = 2 := by
    unfold utf8Size
    rw [if_pos (by simp; omega)]
  have hlo : acceptLo s0 = 0x80 := by
    simp only [acceptLo]; split_ifs <;> simp_all
  have hhi : acceptHi s0 = 0xBF := by
    simp only [acceptHi]; split_ifs <;> simp_all
  have hb : ¬ (b1 < 0x80 ∨ 0xBF < b1) := by omega
  simp [decodeRune, hn, hsz, hlo, hhi, hb]

theorem decodeRune_three (s0 b1 b2 : Nat) (x : Bytes) (h1 : 0xE0 ≤ s0) (h2 : s0 ≤ 0xEF)
    (h3 : 0x80 ≤ b1) (h4 : b1 ≤ 0xBF) (h5 : s0 = 0xE0 → 0xA0 ≤ b1) (h6 : s0 = 0xED → b1 ≤ 0x9F)
    (h7 : 0x80 ≤ b2) (h8 : b2 ≤ 0xBF) :
    decodeRune (s0 :: b1 :: b2 :: x) = (s0 % 16 * 4096 + b1 % 64 * 64 + b2 % 64, 3) := by
  have hn : ¬ s0 < 0x80 := by omega
  have hsz : utf8Size s0 = 3 := by
    unfold utf8Size
    rw [if_neg (by simp; omega), if_pos (by simp; omega)]
  have hb1 : ¬ (b1 < acceptLo s0 ∨ acceptHi s0 < b1) := by
    simp only [acceptLo, acceptHi]
    split_ifs <;> simp_all
  have hb2 : ¬ (b2 < 0x80 ∨ 0xBF < b2) := by omega
  simp [decodeRune, hn, hsz, hb1, hb2]

theorem decodeRune_four (s0 b1 b2 b3 : Nat) (x : Bytes) (h1 : 0xF0 ≤ s0) (h2 : s0 ≤ 0xF4)
    (h3 : 0x80 ≤ b1) (h4 : b1 ≤ 0xBF) (h5 : s0 = 0xF0 → 0x90 ≤ b1) (h6 : s0 = 0xF4 → b1 ≤ 0x8F)
    (h7 : 0x80 ≤ b2) (h8 : b2 ≤ 0xBF) (h9 : 0x80 ≤ b3) (h10 : b3 ≤ 0xBF) :
    decodeRune (s0 :: b1 :: b2 :: b3 :: x) =
      (s0 % 8 * 262144 + b1 % 64 * 4096 + b2 % 64 * 64 + b3 % 64, 4) := by
  have hn : ¬ s0 < 0x80 := by omega
  have hsz : utf8Size s0 = 4 := by
    unfold utf8Size
    rw [if_neg (by simp; omega), if_neg (by simp; omega), if_pos (by simp; omega)]
  have hb1 : ¬ (b1 < acceptLo s0 ∨ acceptHi s0 < b1) := by
    simp only [acceptLo, acceptHi]
    split_ifs <;> simp_all
  have hb2 : ¬ (b2 < 0x80 ∨ 0xBF < b2) := by omega
  have hb3 : ¬ (b3 < 0x80 ∨ 0xBF < b3) := by omega
  simp [decodeRune, hn, hsz, hb1, hb2, hb3]

theorem encodeRune_two (s0 b1 : Nat) (h1 : 0xC2 ≤ s0) (h2 : s0 ≤ 0xDF)
    (h3 : 0x80 ≤ b1) (h4 : b1 ≤ 0xBF) :
    encodeRune (s0 % 32 * 64 + b1 % 64) = [s0, b1] := by
  unfold encodeRune
  rw [if_neg (by omega), if_pos (by omega)]
  congr 1
  · omega
  · congr 1; omega

theorem encodeRune_three (s0 b1 b2 : Nat) (h1 : 0xE0 ≤ s0) (h2 : s0 ≤ 0xEF)
    (h3 : 0x80 ≤ b1) (h4 : b1 ≤ 0xBF) (h5 : s0 = 0xE0 → 0xA0 ≤ b1) (h6 : s0 = 0xED → b1 ≤ 0x9F)
    (h7 : 0x80 ≤ b2) (h8 : b2 ≤ 0xBF) :
    encodeRune (s0 % 16 * 4096 + b1 % 64 * 64 + b2 % 64) = [s0, b1, b2] := by
  unfold encodeRune
  rw [if_neg (by omega), if_neg (by omega), if_neg (by simp; omega), if_pos (by omega)]
  congr 1
  · omega
  · congr 1
    · omega
    · congr 1; omega

theorem encodeRune_four (s0 b1 b2 b3 : Nat) (h1 : 0xF0 ≤ s0) (h2 : s0 ≤ 0xF4)
    (h3 : 0x80 ≤ b1) (h4 : b1 ≤ 0xBF) (h5 : s0 = 0xF0 → 0x90 ≤ b1) (h6 : s0 = 0xF4 → b1 ≤ 0x8F)
    (h7 : 0x80 ≤ b2) (h8 : b2 ≤ 0xBF) (h9 : 0x80 ≤ b3) (h10 : b3 ≤ 0xBF) :
    encodeRune (s0 % 8 * 262144 + b1 % 64 * 4096 + b2 % 64 * 64 + b3 % 64) = [s0, b1, b2, b3] := by
  unfold encodeRune
  rw [if_neg (by omega), if_neg (by omega), if_neg (by simp; omega), if_neg (by omega)]
  congr 1
  · omega
  · congr 1
    · omega
    · congr 1
      · omega
      · congr 1; omega

/-- A valid multi-byte encoding at the head of `s0 :: t`: its bytes `s0 :: pre`, what
follows them, and how decoding and encoding act on it. -/
theorem decodeRune_valid_facts (s0 : Nat) (t : Bytes) (h80 : 0x80 ≤ s0)
    (hv : ¬ ((decodeRune (s0 :: t)).1 = RuneError ∧ (decodeRune (s0 :: t)).2 = 1)) :
    ∃ pre : Bytes,
      pre.length + 1 = (decodeRune (s0 :: t)).2 ∧
      t = pre ++ t.drop ((decodeRune (s0 :: t)).2 - 1) ∧
      encodeRune (decodeRune (s0 :: t)).1 = s0 :: pre ∧
      (∀ x, decodeRune (s0 :: (pre ++ x)) = decodeRune (s0 :: t)) := by
  rcases decodeRune_valid s0 t h80 hv with
    ⟨b1, t1, ht, h1, h2, h3, h4, e⟩ | ⟨b1, b2, t2, ht, h1, h2, h3, h4, h5, h6, h7, h8, e⟩ |
    ⟨b1, b2, b3, t3, ht, h1, h2, h3, h4, h5, h6, h7, h8, h9, h10, e⟩
  · subst ht
    refine ⟨[b1], ?_, ?_, ?_, ?_⟩
    · rw [e]; rfl
    · rw [e]; rfl
    · rw [e]; exact encodeRune_two s0 b1 h1 h2 h3 h4
    · intro x; rw [e]; exact decodeRune_two s0 b1 x h1 h2 h3 h4
  · subst ht
    refine ⟨[b1, b2], ?_, ?_, ?_, ?_⟩
    · rw [e]; rfl
    · rw [e]; rfl
    · rw [e]; exact encodeRune_three s0 b1 b2 h1 h2 h3 h4 h5 h6 h7 h8
    · intro x; rw [e]; exact decodeRune_three s0 b1 b2 x h1 h2 h3 h4 h5 h6 h7 h8
  · subst ht
    refine ⟨[b1, b2, b3], ?_, ?_, ?_, ?_⟩
    · rw [e]; rfl
    · rw [e]; rfl
    · rw [e]; exact encodeRune_four s0 b1 b2 b3 h1 h2 h3 h4 h5 h6 h7 h8 h9 h10
    · intro x; rw [e]; exact decodeRune_four s0 b1 b2 b3 x h1 h2 h3 h4 h5 h6 h7 h8 h9 h10
/-! ## JSON strings: decoding undoes encoding -/

/-- One step of the decoder over a safe ASCII byte. -/
theorem unquoteLoop_safe (b : Nat) (hs : htmlSafeSet b = true) (f2 : Nat) (tail : Bytes) :
    unquoteLoop (f2 + 1) ([b] ++ tail) = (unquoteLoop f2 tail).map fun r => (b :: r.1, r.2) := by
  simp only [htmlSafeSet, Bool.and_eq_true, decide_eq_true_eq, bne_iff_ne, ne_eq] at hs
  have h1 : ¬ b = 34 := by omega
  have h2 : ¬ b = 92 := by omega
  have h3 : ¬ b < 32 := by omega
  have h4 : b < 0x80 := by omega
  rw [List.singleton_append, unquoteLoop, if_neg (by simpa using h1), if_neg (by simpa using h2),
    if_neg (by simpa using h3), if_pos (by simpa using h4)]

/-- One step of the decoder over the escape of an unsafe ASCII byte. -/
theorem unquoteLoop_escapeByte (b : Nat) (hb : b < 0x80) (hs : htmlSafeSet b = false)
    (f2 : Nat) (tail : Bytes) :
    unquoteLoop (f2 + 1) (escapeByte b ++ tail) =
      (unquoteLoop f2 tail).map fun r => (b :: r.1, r.2) := by
  interval_cases b <;> first
    | (exfalso; revert hs; decide)
    | rfl

/-- One step of the decoder over a multi-byte encoding. -/
theorem unquoteLoop_rune (c : Nat) (hc : 0x80 ≤ c) (f2 : Nat) (tail : Bytes) :
    unquoteLoop (f2 + 1) (c :: tail) =
      (unquoteLoop f2 (tail.drop ((decodeRune (c :: tail)).2 - 1))).map
        fun r => (encodeRune (decodeRune (c :: tail)).1 ++ r.1, r.2) := by
  rw [unquoteLoop, if_neg (by simp; omega), if_neg (by simp; omega), if_neg (by omega),
    if_neg (by omega)]

/-- One step of the decoder over the escape of U+2028 or U+2029. -/
theorem unquoteLoop_line_separator (r : Nat) (hr : r = 0x2028 ∨ r = 0x2029) (f2 : Nat)
    (tail : Bytes) :
    unquoteLoop (f2 + 1) ([92, 117, 50, 48, 50, hexDigit (r % 16)] ++ tail) =
      (unquoteLoop f2 tail).map fun x => (encodeRune r ++ x.1, x.2) := by
  rcases hr with h | h <;> subst h <;> rfl

/-- The escape of a byte is not empty. -/
theorem escapeByte_length (b : Nat) : 1 ≤ (escapeByte b).length := by
  unfold escapeByte
  split_ifs <;> simp

/-- Decoding a JSON string literal written by `appendString` gives back the string,
if it is valid UTF-8. -/
theorem unquoteLoop_appendStringLoop :
    ∀ (fuel : Nat) (s : Bytes), s.length ≤ fuel → validStringLoop fuel s = true →
      ∀ (fuel2 : Nat) (rest : Bytes), (appendStringLoop fuel s).length + 1 ≤ fuel2 →
        unquoteLoop fuel2 (appendStringLoop fuel s ++ 34 :: rest) = some (s, rest) := by
  intro fuel
  induction fuel with
  | zero =>
    intro s hlen _ fuel2 rest hf
    have hs : s = [] := List.eq_nil_of_length_eq_zero (by omega)
    subst hs
    cases fuel2 with
    | zero => simp at hf
    | succ f2 => rfl
  | succ fuel ih =>
    intro s hlen hvalid fuel2 rest hf
    cases s with
    | nil =>
      cases fuel2 with
      | zero => simp at hf
      | succ f2 => rfl
    | cons b t =>
      cases fuel2 with
      | zero => simp at hf
      | succ f2 =>
        have hlen1 : t.length ≤ fuel := by simpa using hlen
        rw [validStringLoop] at hvalid
        by_cases hb : b < 0x80
        · rw [if_pos hb] at hvalid
          have hrec := ih t hlen1 hvalid
          cases hsafe : htmlSafeSet b
          · have hE : appendStringLoop (fuel + 1) (b :: t) =
                escapeByte b ++ appendStringLoop fuel t := by
              rw [appendStringLoop, if_pos hb, hsafe]
              rfl
            have hl := escapeByte_length b
            rw [hE] at hf ⊢
            rw [List.append_assoc, unquoteLoop_escapeByte b hb hsafe,
              hrec f2 rest (by simp only [List.length_append] at hf; omega)]
            rfl
          · have hE : appendStringLoop (fuel + 1) (b :: t) = [b] ++ appendStringLoop fuel t := by
              rw [appendStringLoop, if_pos hb, hsafe]
              rfl
            rw [hE] at hf ⊢
            rw [List.append_assoc, unquoteLoop_safe b hsafe,
              hrec f2 rest (by simp only [List.length_append, List.length_singleton] at hf; omega)]
            rfl
        · rw [if_neg hb] at hvalid
          simp only at hvalid
          have hv : ¬ ((decodeRune (b :: t)).1 = RuneError ∧ (decodeRune (b :: t)).2 = 1) := by
            intro h
            simp [h.1, h.2] at hvalid
          have hcond : ((decodeRune (b :: t)).1 == RuneError && (decodeRune (b :: t)).2 == 1)
              = false := by
            simpa using hv
          rw [hcond] at hvalid
          simp only [Bool.false_eq_true, if_false] at hvalid
          obtain ⟨pre, hpre, ht, henc, hdec⟩ := decodeRune_valid_facts b t (by omega) hv
          have hdrop : (t.drop ((decodeRune (b :: t)).2 - 1)).length ≤ fuel := by
            simp only [List.length_drop]; omega
          have hrec := ih (t.drop ((decodeRune (b :: t)).2 - 1)) hdrop hvalid
          have htake : (b :: t).take (decodeRune (b :: t)).2 = b :: pre := by
            rw [← hpre, ht, ← hpre]
            simp
          have hback : b :: pre ++ t.drop ((decodeRune (b :: t)).2 - 1) = b :: t := by
            rw [List.cons_append, ← ht]
          by_cases hsep : (decodeRune (b :: t)).1 = 0x2028 ∨ (decodeRune (b :: t)).1 = 0x2029
          · have hc2 : ((decodeRune (b :: t)).1 == 0x2028 || (decodeRune (b :: t)).1 == 0x2029)
                = true := by simpa using hsep
            have hE : appendStringLoop (fuel + 1) (b :: t) =
                [92, 117, 50, 48, 50, hexDigit ((decodeRune (b :: t)).1 % 16)] ++
                  appendStringLoop fuel (t.drop ((decodeRune (b :: t)).2 - 1)) := by
              rw [appendStringLoop, if_neg hb]
              simp only [hcond, hc2, Bool.false_eq_true, if_false, if_true]
            rw [hE] at hf ⊢
            rw [List.append_assoc, unquoteLoop_line_separator _ hsep,
              hrec f2 rest (by simp only [List.length_append, List.length_cons] at hf; omega)]
            simp only [Option.map_some', henc, hback]
          · have hc2 : ((decodeRune (b :: t)).1 == 0x2028 || (decodeRune (b :: t)).1 == 0x2029)
                = false := by simpa using hsep
            have hE : appendStringLoop (fuel + 1) (b :: t) =
                (b :: pre) ++ appendStringLoop fuel (t.drop ((decodeRune (b :: t)).2 - 1)) := by
              rw [appendStringLoop, if_neg hb]
              simp only [hcond, hc2, Bool.false_eq_true, if_false, htake]
            rw [hE] at hf ⊢
            rw [List.append_assoc, List.cons_append, unquoteLoop_rune b (by omega), hdec]
            have hd : (pre ++ (appendStringLoop fuel (t.drop ((decodeRune (b :: t)).2 - 1)) ++
                34 :: rest)).drop ((decodeRune (b :: t)).2 - 1) =
                appendStringLoop fuel (t.drop ((decodeRune (b :: t)).2 - 1)) ++ 34 :: rest := by
              rw [← hpre]
              simp
            rw [hd, hrec f2 rest (by simp only [List.length_append, List.length_cons] at hf; omega)]
            simp only [Option.map_some', henc, hback]

/-- The function `unquote` undoes `appendString` on valid UTF-8. -/
theorem unquote_appendString (s rest : Bytes) (h : validString s = true) :
    unquote ((appendString s).drop 1 ++ rest) = some (s, rest) := by
  have e : (appendString s).drop 1 ++ rest =
      appendStringLoop s.length s ++ 34 :: rest := by
    simp [appendString]
  rw [e, unquote]
  exact unquoteLoop_appendStringLoop s.length s (Nat.le_refl _) h _ rest
    (by simp only [List.length_append, List.length_cons]; omega)
/-! ## Decoding the encoding of a `User` -/

theorem validStringLoop_ascii (s : Bytes) :
    ∀ fuel, s.length ≤ fuel → (∀ b ∈ s, b < 0x80) → validStringLoop fuel s = true := by
  induction s with
  | nil => intro fuel _ _; cases fuel <;> rfl
  | cons b t ih =>
    intro fuel hfuel h
    cases fuel with
    | zero => simp at hfuel
    | succ fuel =>
      rw [validStringLoop, if_pos (h b (by simp))]
      exact ih fuel (by simpa using hfuel) (fun c hc => h c (by simp [hc]))

/-- An ASCII string is valid UTF-8. -/
theorem validString_ascii (s : Bytes) (h : ∀ b ∈ s, b < 0x80) : validString s = true :=
  validStringLoop_ascii s s.length (Nat.le_refl _) h

/-- A birthday that `Validate` accepts consists of ASCII digits and hyphens. -/
theorem calendarDateText_ascii (s : Bytes) (h : isCalendarDateText s = true) :
    ∀ b ∈ s, b < 0x80 := by
  rcases s with _ | ⟨y1, _ | ⟨y2, _ | ⟨y3, _ | ⟨y4, _ | ⟨h1, _ | ⟨m1, _ | ⟨m2, _ | ⟨h2, _ | ⟨d1,
    _ | ⟨d2, _ | ⟨x, rest⟩⟩⟩⟩⟩⟩⟩⟩⟩⟩⟩ <;> simp [isCalendarDateText] at h
  obtain ⟨⟨⟨⟨⟨⟨⟨⟨⟨⟨⟨⟨⟨a1, a2⟩, a3⟩, a4⟩, a5⟩, a6⟩, a7⟩, a8⟩, a9⟩, a10⟩, -⟩, -⟩, -⟩, -⟩ := h
  simp only [isDecimalDigit, Bool.and_eq_true, decide_eq_true_eq] at a1 a2 a3 a4 a6 a7 a9 a10
  intro b hb
  simp only [List.mem_cons, List.mem_singleton, List.not_mem_nil, or_false] at hb
  rcases hb with h | h | h | h | h | h | h | h | h | h <;> omega

theorem skipSpace_quote (x : Bytes) : skipSpace (34 :: x) = 34 :: x := rfl

/-- Scanning a string literal written by `appendString`. -/
theorem scanValue_string (fuel depth : Nat) (s rest : Bytes) (h : validString s = true) :
    scanValue (fuel + 1) depth (appendString s ++ rest) = some (JValue.string s, rest) := by
  have e : appendString s ++ rest = 34 :: ((appendString s).drop 1 ++ rest) := by
    simp [appendString]
  rw [e, scanValue, skipSpace_quote]
  simp only [unquote_appendString s rest h]
  rfl

/-- Scanning an object member written by the encoder, when another follows. -/
theorem scanMembers_cons (fuel depth : Nat) (key val rest : Bytes)
    (hk : validString key = true) (hv : validString val = true) :
    scanMembers (fuel + 2) depth
        (appendString key ++ ([58] ++ (appendString val ++ ([44] ++ rest)))) =
      (scanMembers (fuel + 1) depth rest).map fun r =>
        ((key, JValue.string val) :: r.1, r.2) := by
  have e : appendString key ++ ([58] ++ (appendString val ++ ([44] ++ rest))) =
      34 :: ((appendString key).drop 1 ++ ([58] ++ (appendString val ++ ([44] ++ rest)))) := by
    simp [appendString]
  rw [e, scanMembers, skipSpace_quote]
  simp only [unquote_appendString key _ hk]
  have e2 : skipSpace ([58] ++ (appendString val ++ ([44] ++ rest))) =
      58 :: (appendString val ++ ([44] ++ rest)) := rfl
  simp only [e2, scanValue_string fuel depth val _ hv]
  rfl

/-- Scanning the last object member written by the encoder. -/
theorem scanMembers_last (fuel depth : Nat) (key val rest : Bytes)
    (hk : validString key = true) (hv : validString val = true) :
    scanMembers (fuel + 2) depth
        (appendString key ++ ([58] ++ (appendString val ++ ([125] ++ rest)))) =
      some ([(key, JValue.string val)], rest) := by
  have e : appendString key ++ ([58] ++ (appendString val ++ ([125] ++ rest))) =
      34 :: ((appendString key).drop 1 ++ ([58] ++ (appendString val ++ ([125] ++ rest)))) := by
    simp [appendString]
  rw [e, scanMembers, skipSpace_quote]
  simp only [unquote_appendString key _ hk]
  have e2 : skipSpace ([58] ++ (appendString val ++ ([125] ++ rest))) =
      58 :: (appendString val ++ ([125] ++ rest)) := rfl
  simp only [e2, scanValue_string fuel depth val _ hv]
  rfl

/-- The text of a UUID is valid UTF-8. -/
theorem uuid_string_valid (u : UUID) : validString u.String = true := by
  apply validString_ascii
  have hc := uuid_string_canonical u
  simp only [isCanonicalUUIDText, Bool.and_eq_true, List.all_eq_true, List.mem_range,
    beq_iff_eq] at hc
  intro b hb
  obtain ⟨i, hi, rfl⟩ := List.getElem_of_mem hb
  have h := hc.2 i (by omega)
  have hg : u.String.getD i 0 = u.String[i] := by
    simp [List.getD, List.getElem?_eq_getElem hi]
  rw [hg] at h
  split_ifs at h
  · simp only [beq_iff_eq] at h; omega
  · simp only [Bool.or_eq_true, Bool.and_eq_true, decide_eq_true_eq] at h; omega

/-- Decoding the encoding of a user gives the user back, if its strings are valid
UTF-8; what follows the encoding in the input plays no part. -/
theorem jsonDecodeUser_jsonMarshalUser (u : User) (rest : Bytes)
    (hn : validString u.Name = true) (he : validString u.Email = true)
    (hb : validString u.Birthday = true) :
    jsonDecodeUser (jsonMarshalUser u ++ rest) = Except.ok u := by
  have hbody : jsonMarshalUser u ++ rest = 123 :: (appendString (str "ID") ++ ([58] ++
      (appendString u.ID.String ++ ([44] ++ (appendString (str "Name") ++ ([58] ++
      (appendString u.Name ++ ([44] ++ (appendString (str "Email") ++ ([58] ++
      (appendString u.Email ++ ([44] ++ (appendString (str "Birthday") ++ ([58] ++
      (appendString u.Birthday ++ ([125] ++ rest)))))))))))))))) := by
    simp [jsonMarshalUser]
  have hlen : 5 ≤ (jsonMarshalUser u ++ rest).length := by
    rw [hbody]
    simp only [List.length_cons, List.length_append, appendString]
    omega
  obtain ⟨n, hn5⟩ := Nat.exists_eq_add_of_le hlen
  have hfuel : (jsonMarshalUser u ++ rest).length + 1 = (n + 5) + 1 := by omega
  have hq : ∀ s x, skipSpace (appendString s ++ x) = appendString s ++ x := by
    intro s x; rfl
  have key1 : validString (str "ID") = true := by decide
  have key2 : validString (str "Name") = true := by decide
  have key3 : validString (str "Email") = true := by decide
  have key4 : validString (str "Birthday") = true := by decide
  have hscan : scanValue ((jsonMarshalUser u ++ rest).length + 1) 0 (jsonMarshalUser u ++ rest) =
      some (JValue.object [(str "ID", JValue.string u.ID.String), (str "Name", JValue.string u.Name),
        (str "Email", JValue.string u.Email), (str "Birthday", JValue.string u.Birthday)], rest) := by
    rw [hfuel, hbody, scanValue]
    have e1 : skipSpace (123 :: (appendString (str "ID") ++ ([58] ++
      (appendString u.ID.String ++ ([44] ++ (appendString (str "Name") ++ ([58] ++
      (appendString u.Name ++ ([44] ++ (appendString (str "Email") ++ ([58] ++
      (appendString u.Email ++ ([44] ++ (appendString (str "Birthday") ++ ([58] ++
      (appendString u.Birthday ++ ([125] ++ rest))))))))))))))))) = 123 :: (appendString (str "ID") ++ ([58] ++
      (appendString u.ID.String ++ ([44] ++ (appendString (str "Name") ++ ([58] ++
      (appendString u.Name ++ ([44] ++ (appendString (str "Email") ++ ([58] ++
      (appendString u.Email ++ ([44] ++ (appendString (str "Birthday") ++ ([58] ++
      (appendString u.Birthday ++ ([125] ++ rest)))))))))))))))) := rfl
    simp only [e1]
    have e2 : (123 == 123) = true := rfl
    have e3 : ¬ maxNestingDepth ≤ 0 := by decide
    simp only [e2, e3, if_true, if_false, hq]
    rw [show n + 5 = (n + 3) + 2 from rfl,
      scanMembers_cons _ _ _ _ _ key1 (uuid_string_valid u.ID),
      show n + 3 + 1 = (n + 2) + 2 from rfl, scanMembers_cons _ _ _ _ _ key2 hn,
      show n + 2 + 1 = (n + 1) + 2 from rfl, scanMembers_cons _ _ _ _ _ key3 he,
      show n + 1 + 1 = n + 2 from rfl, scanMembers_last _ _ _ _ _ key4 hb]
    rfl
  have k1 : keyMatches (str "ID") "ID" = true := by decide
  have k2 : keyMatches (str "Name") "ID" = false := by decide
  have k3 : keyMatches (str "Name") "Name" = true := by decide
  have k4 : keyMatches (str "Email") "ID" = false := by decide
  have k5 : keyMatches (str "Email") "Name" = false := by decide
  have k6 : keyMatches (str "Email") "Email" = true := by decide
  have k7 : keyMatches (str "Birthday") "ID" = false := by decide
  have k8 : keyMatches (str "Birthday") "Name" = false := by decide
  have k9 : keyMatches (str "Birthday") "Email" = false := by decide
  have k10 : keyMatches (str "Birthday") "Birthday" = true := by decide
  simp only [jsonDecodeUser, hscan, storeMembers, storeMember, storeString, k1, k2, k3, k4, k5, k6,
    k7, k8, k9, k10, uuid_unmarshalText_string, if_true, if_false, Bool.false_eq_true]

/-! ## Creating a user and fetching it -/

/-- The claim C8 as worded fails for a user whose name or email is not valid UTF-8.
The user `latin1User` passes `Validate` and the empty registry holds neither its
email nor its ID; the POST of its JSON encoding is answered with status 204, but the
user that `GetUser` returns afterwards has the name U+FFFD, not the byte `0xFF`.  For
`latin1EmailUser` the user is stored under the email U+FFFD, and `GetUser` with the
email of the user fails with `ErrUserNotFound`. -/
theorem createUser_roundtrip_counterexample :
    (latin1User.Validate = none ∧
      MockRegistry.empty.users latin1User.Email = none ∧
      MockRegistry.empty.uuids latin1User.ID.String = none ∧
      (createUser mockRegistry MockRegistry.empty ResponseWriter.new
        ⟨str "POST", str "/user", jsonMarshalUser latin1User⟩).w.status = 204 ∧
      (mockRegistry.GetUser
        (createUser mockRegistry MockRegistry.empty ResponseWriter.new
          ⟨str "POST", str "/user", jsonMarshalUser latin1User⟩).state latin1User.Email).1 =
        Except.ok latin1UserCoerced ∧
      latin1UserCoerced.Name ≠ latin1User.Name) ∧
    (latin1EmailUser.Validate = none ∧
      MockRegistry.empty.users latin1EmailUser.Email = none ∧
      MockRegistry.empty.uuids latin1EmailUser.ID.String = none ∧
      (createUser mockRegistry MockRegistry.empty ResponseWriter.new
        ⟨str "POST", str "/user", jsonMarshalUser latin1EmailUser⟩).w.status = 204 ∧
      (mockRegistry.GetUser
        (createUser mockRegistry MockRegistry.empty ResponseWriter.new
          ⟨str "POST", str "/user", jsonMarshalUser latin1EmailUser⟩).state
          latin1EmailUser.Email).1 = Except.error (GoError.sentinel UserErr.ErrUserNotFound)) :=
  ⟨⟨by decide, rfl, rfl, by rfl, by rfl, by decide⟩, ⟨by decide, rfl, rfl, by rfl, by rfl⟩⟩

/-- C8, amended. For every user `u` that passes `Validate` and whose `Name` and
`Email` are valid UTF-8, and every in-memory registry that holds neither the email
nor the ID of `u`: the POST whose body is the JSON encoding of `u` is answered with
status 204 and an empty body (by `createUser`, which is also where the router sends
`POST /user`), and afterwards `GetUser(u.Email)` returns `u`. -/
theorem createUser_then_getUser (u : User) (m : MockRegistry)
    (hvalidate : u.Validate = none)
    (hname : validString u.Name = true) (hemail : validString u.Email = true)
    (hfresh : m.users u.Email = none) (hfreshID : m.uuids u.ID.String = none) :
    (createUser mockRegistry m ResponseWriter.new
      ⟨str "POST", str "/user", jsonMarshalUser u⟩).w.status = 204 ∧
    (createUser mockRegistry m ResponseWriter.new
      ⟨str "POST", str "/user", jsonMarshalUser u⟩).w.body = [] ∧
    (mockRegistry.GetUser
      (createUser mockRegistry m ResponseWriter.new
        ⟨str "POST", str "/user", jsonMarshalUser u⟩).state u.Email).1 = Except.ok u ∧
    serveHTTP mockRegistry m ResponseWriter.new ⟨str "POST", str "/user", jsonMarshalUser u⟩ =
      createUser mockRegistry m ResponseWriter.new ⟨str "POST", str "/user", jsonMarshalUser u⟩ := by
  have hcal : isCalendarDateText u.Birthday = true := by
    have h := validate_accepts_calendar_date u
    rw [hvalidate] at h
    by_contra hc
    rw [if_neg hc] at h
    cases h
  have hbirthday : validString u.Birthday = true :=
    validString_ascii _ (calendarDateText_ascii _ hcal)
  have hdecode : jsonDecodeUser (jsonMarshalUser u) = Except.ok u := by
    have h := jsonDecodeUser_jsonMarshalUser u [] hname hemail hbirthday
    rwa [List.append_nil] at h
  have hrun : createUser mockRegistry m ResponseWriter.new
      ⟨str "POST", str "/user", jsonMarshalUser u⟩ =
      ⟨ResponseWriter.new.WriteHeader StatusNoContent,
        { users := fun k => if k = u.Email then some u else m.users k,
          uuids := fun k => if k = u.ID.String then some true else m.uuids k },
        [RegistryCall.CreateUser u]⟩ := by
    simp only [createUser, hdecode, hvalidate, mockRegistry, MockRegistry.CreateUser, hfresh,
      hfreshID, Option.isSome_none, Bool.false_eq_true, if_false]
  rw [hrun]
  refine ⟨rfl, rfl, ?_, ?_⟩
  · simp [mockRegistry, MockRegistry.GetUser]
  · rw [← hrun]
    rfl

/-- An instance of C8: the request of `TestCreateUser` on the empty registry. -/
theorem createUser_then_getUser_witness :
    newUser.Validate = none ∧ validString newUser.Name = true ∧
    validString newUser.Email = true ∧
    (createUser mockRegistry MockRegistry.empty ResponseWriter.new
      ⟨str "POST", str "/user", jsonMarshalUser newUser⟩).w.status = 204 ∧
    (mockRegistry.GetUser
      (createUser mockRegistry MockRegistry.empty ResponseWriter.new
        ⟨str "POST", str "/user", jsonMarshalUser newUser⟩).state newUser.Email).1 =
      Except.ok newUser :=
  ⟨by decide, by decide, by decide,
    (createUser_then_getUser newUser MockRegistry.empty (by decide) (by decide) (by decide)
      rfl rfl).1,
    (createUser_then_getUser newUser MockRegistry.empty (by decide) (by decide) (by decide)
      rfl rfl).2.2.1⟩

/-! ## Fetching a stored user -/

/-- The claim C9 as worded fails for the empty email, which holds no slash:
`blankEmailUser` is stored under it (put there by `CreateUser`), yet the request
`GET /user/` is answered with status 400 and `malformed URI`.  And the body does not
hold a name that is not valid UTF-8: for `latin1User` the JSON string of the name is
the escape of U+FFFD. -/
theorem getUser_stored_user_counterexample :
    (blankEmailRegistry.users [] = some blankEmailUser ∧ 47 ∉ blankEmailUser.Email ∧
      (getUser mockRegistry blankEmailRegistry ResponseWriter.new
        ⟨str "GET", str "/user/" ++ blankEmailUser.Email, []⟩).w.status = 400 ∧
      (getUser mockRegistry blankEmailRegistry ResponseWriter.new
        ⟨str "GET", str "/user/" ++ blankEmailUser.Email, []⟩).w.body = str "malformed URI\n") ∧
    (latin1Registry.users latin1User.Email = some latin1User ∧
      (getUser mockRegistry latin1Registry ResponseWriter.new
        ⟨str "GET", str "/user/" ++ latin1User.Email, []⟩).w.body =
        str "\x7b\"ID\":\"9d225408-6a94-49e7-8e04-69ff654e0ff4\",\"Name\":\"\\ufffd\",\"Email\":\"new@example.com\",\"Birthday\":\"1999-12-31\"\x7d\n") := by
  decide

/-- C9, amended. For every user `u` stored in the in-memory registry under an email
that is not empty and holds no slash, `GET /user/{email}` handled by `getUser` is
answered with status 200, the header `Content-Type: application/json`, and a body
that is the JSON object with the keys `ID`, `Name`, `Email`, `Birthday` in this order
followed by a newline: the ID as a string in canonical hyphenated form, the other
three as `encoding/json` writes a string (whatever the birthday is).  The body
decodes back to `u` when the strings of `u` are valid UTF-8. -/
theorem getUser_returns_stored_user (m : MockRegistry) (u : User) (email method body : Bytes)
    (hne : email ≠ []) (hslash : 47 ∉ email) (hstored : m.users email = some u) :
    (getUser mockRegistry m ResponseWriter.new ⟨method, str "/user/" ++ email, body⟩).w.status
      = 200 ∧
    (getUser mockRegistry m ResponseWriter.new
      ⟨method, str "/user/" ++ email, body⟩).w.getHeader (str "Content-Type")
      = some (str "application/json") ∧
    (getUser mockRegistry m ResponseWriter.new ⟨method, str "/user/" ++ email, body⟩).w.body =
      str "\x7b\"ID\":\"" ++ u.ID.String ++ str "\",\"Name\":" ++ appendString u.Name ++
        str ",\"Email\":" ++ appendString u.Email ++ str ",\"Birthday\":" ++
        appendString u.Birthday ++ str "\x7d\n" ∧
    isCanonicalUUIDText u.ID.String = true ∧
    (validString u.Name = true → validString u.Email = true → validString u.Birthday = true →
      jsonDecodeUser (getUser mockRegistry m ResponseWriter.new
        ⟨method, str "/user/" ++ email, body⟩).w.body = Except.ok u) := by
  have hrun : getUser mockRegistry m ResponseWriter.new ⟨method, str "/user/" ++ email, body⟩ =
      ⟨(ResponseWriter.new.setHeader (str "Content-Type") (str "application/json")).Write
        (jsonMarshalUser u ++ [10]), m, [RegistryCall.GetUser email]⟩ := by
    simp only [getUser, stringsTrimSlash_user_path email hne hslash,
      stringsSplitSlash_user_path email hslash]
    simp [mockRegistry, MockRegistry.GetUser, hstored, jsonEncodeUser]
  have hid : appendString u.ID.String = [34] ++ u.ID.String ++ [34] := by
    apply appendString_safe
    have hc := uuid_string_canonical u.ID
    simp only [isCanonicalUUIDText, Bool.and_eq_true, List.all_eq_true, List.mem_range,
      beq_iff_eq] at hc
    intro b hb
    obtain ⟨i, hi, rfl⟩ := List.getElem_of_mem hb
    have h := hc.2 i (by omega)
    have hg : u.ID.String.getD i 0 = u.ID.String[i] := by
      simp [List.getD, List.getElem?_eq_getElem hi]
    rw [hg] at h
    simp only [htmlSafeSet, Bool.and_eq_true, decide_eq_true_eq, bne_iff_ne, ne_eq]
    split_ifs at h
    · simp only [beq_iff_eq] at h; omega
    · simp only [Bool.or_eq_true, Bool.and_eq_true, decide_eq_true_eq] at h; omega
  have hbody : jsonMarshalUser u ++ [10] =
      str "\x7b\"ID\":\"" ++ u.ID.String ++ str "\",\"Name\":" ++ appendString u.Name ++
        str ",\"Email\":" ++ appendString u.Email ++ str ",\"Birthday\":" ++
        appendString u.Birthday ++ str "\x7d\n" := by
    have e1 : str "\x7b\"ID\":\"" = [123] ++ appendString (str "ID") ++ [58] ++ [34] := by decide
    have e2 : str "\",\"Name\":" = [34] ++ [44] ++ appendString (str "Name") ++ [58] := by decide
    have e3 : str ",\"Email\":" = [44] ++ appendString (str "Email") ++ [58] := by decide
    have e4 : str ",\"Birthday\":" = [44] ++ appendString (str "Birthday") ++ [58] := by decide
    have e5 : str "\x7d\n" = [125] ++ [10] := by decide
    rw [jsonMarshalUser, hid, e1, e2, e3, e4, e5]
    simp only [List.append_assoc]
  have hw : ((ResponseWriter.new.setHeader (str "Content-Type") (str "application/json")).Write
      (jsonMarshalUser u ++ [10])).body = jsonMarshalUser u ++ [10] := rfl
  rw [hrun]
  simp only [hw]
  refine ⟨rfl, rfl, hbody, uuid_string_canonical u.ID, ?_⟩
  intro h1 h2 h3
  exact jsonDecodeUser_jsonMarshalUser u [10] h1 h2 h3

/-- An instance of C9: the request of `TestGetUser`, whose stored birthday
`01/01/2001` is no date in the format of `Validate`. -/
theorem getUser_returns_stored_user_witness :
    str "test@example.com" ≠ [] ∧ 47 ∉ str "test@example.com" ∧
    testRegistry.users (str "test@example.com") = some testUser ∧
    (getUser mockRegistry testRegistry ResponseWriter.new
      ⟨str "GET", str "/user/" ++ str "test@example.com", []⟩).w.status = 200 ∧
    (getUser mockRegistry testRegistry ResponseWriter.new
      ⟨str "GET", str "/user/" ++ str "test@example.com", []⟩).w.body =
      str "\x7b\"ID\":\"9d225408-6a94-49e7-8e04-69ff654e0ff4\",\"Name\":\"Test User\",\"Email\":\"test@example.com\",\"Birthday\":\"01/01/2001\"\x7d\n" ∧
    jsonDecodeUser (getUser mockRegistry testRegistry ResponseWriter.new
      ⟨str "GET", str "/user/" ++ str "test@example.com", []⟩).w.body = Except.ok testUser :=
  ⟨by decide, by decide, rfl,
    (getUser_returns_stored_user testRegistry testUser (str "test@example.com") (str "GET") []
      (by decide) (by decide) rfl).1,
    by
      rw [(getUser_returns_stored_user testRegistry testUser (str "test@example.com") (str "GET") []
        (by decide) (by decide) rfl).2.2.1]
      decide,
    (getUser_returns_stored_user testRegistry testUser (str "test@example.com") (str "GET") []
      (by decide) (by decide) rfl).2.2.2.2 (by decide) (by decide) (by decide)⟩

/-! ## Parsing a birthday and formatting it back -/

/-- The digit of a number below ten. -/
theorem digit_of_value (c : Nat) (h : isDecimalDigit c = true) :
    48 ≤ c ∧ c ≤ 57 ∧ digitValue c = c - 48 := by
  simp only [isDecimalDigit, Bool.and_eq_true, decide_eq_true_eq] at h
  exact ⟨h.1, h.2, rfl⟩

/-- The date that `time.Parse` reads off a well-formed birthday. -/
theorem timeParseDate_eq (y1 y2 y3 y4 m1 m2 d1 d2 : Nat)
    (h : isCalendarDateText [y1, y2, y3, y4, 45, m1, m2, 45, d1, d2] = true) :
    timeParseDate [y1, y2, y3, y4, 45, m1, m2, 45, d1, d2] =
      some ⟨((1000 * digitValue y1 + 100 * digitValue y2 + 10 * digitValue y3 + digitValue y4 : Nat)
        : Int), 10 * digitValue m1 + digitValue m2, 10 * digitValue d1 + digitValue d2⟩ := by
  have hs := timeParseDate_isSome [y1, y2, y3, y4, 45, m1, m2, 45, d1, d2]
  rw [h] at hs
  simp only [isCalendarDateText, Bool.and_eq_true, decide_eq_true_eq, beq_iff_eq] at h
  obtain ⟨⟨⟨⟨⟨⟨⟨⟨⟨⟨⟨⟨⟨a1, a2⟩, a3⟩, a4⟩, -⟩, a6⟩, a7⟩, -⟩, a9⟩, a10⟩, hM1⟩, hM2⟩, hD1⟩, hD2⟩ := h
  cases hp : timeParseDate [y1, y2, y3, y4, 45, m1, m2, 45, d1, d2] with
  | none => rw [hp] at hs; cases hs
  | some d =>
    simp only [timeParseDate, isDigit_zero, a1, a2, a3, a4, a6, a7, a9, a10, atoi_four,
      skipLiteral_dash, getnum_fixed, List.length_cons, List.length_nil, List.take, List.drop,
      Bool.and_self, Bool.not_true, Bool.or_false, if_true, if_false, beq_self_eq_true,
      Bool.false_eq_true] at hp
    split_ifs at hp
    cases hp
    rw [Nat.mul_comm (digitValue m1), Nat.mul_comm (digitValue d1)]

/-- The helper `appendInt` on a number below a hundred, two digits wide. -/
theorem appendInt_two (u : Nat) (h : u < 100) :
    appendInt (u : Int) 2 = [48 + u / 10, 48 + u % 10] := by
  have hneg : ¬ ((u : Int) < 0) := by omega
  simp [appendInt, hneg, h]

/-- The helper `appendInt` on a number below ten thousand, four digits wide. -/
theorem appendInt_four (u : Nat) (h : u < 10000) :
    appendInt (u : Int) 4 = [48 + u / 1000, 48 + u / 100 % 10, 48 + u / 10 % 10, 48 + u % 10] := by
  have hneg : ¬ ((u : Int) < 0) := by omega
  simp [appendInt, hneg, h]

/-- Formatting the date that `time.Parse` read gives back the string it read. -/
theorem timeParseDate_format (s : Bytes) (d : Date) (h : timeParseDate s = some d) :
    d.Format = s := by
  have hc : isCalendarDateText s = true := by
    rw [← timeParseDate_isSome, h]
    rfl
  rcases s with _ | ⟨y1, _ | ⟨y2, _ | ⟨y3, _ | ⟨y4, _ | ⟨h1, _ | ⟨m1, _ | ⟨m2, _ | ⟨h2, _ | ⟨d1,
    _ | ⟨d2, _ | ⟨x, rest⟩⟩⟩⟩⟩⟩⟩⟩⟩⟩⟩ <;> try (simp [isCalendarDateText] at hc; done)
  have hc2 := hc
  simp only [isCalendarDateText, Bool.and_eq_true, decide_eq_true_eq, beq_iff_eq] at hc2
  obtain ⟨⟨⟨⟨⟨⟨⟨⟨⟨⟨⟨⟨⟨a1, a2⟩, a3⟩, a4⟩, e1⟩, a6⟩, a7⟩, e2⟩, a9⟩, a10⟩, hM1⟩, hM2⟩, hD1⟩, hD2⟩ := hc2
  subst e1 e2
  rw [timeParseDate_eq _ _ _ _ _ _ _ _ hc] at h
  cases h
  obtain ⟨b1, c1, -⟩ := digit_of_value y1 a1
  obtain ⟨b2, c2, -⟩ := digit_of_value y2 a2
  obtain ⟨b3, c3, -⟩ := digit_of_value y3 a3
  obtain ⟨b4, c4, -⟩ := digit_of_value y4 a4
  obtain ⟨b6, c6, -⟩ := digit_of_value m1 a6
  obtain ⟨b7, c7, -⟩ := digit_of_value m2 a7
  obtain ⟨b9, c9, -⟩ := digit_of_value d1 a9
  obtain ⟨b10, c10, -⟩ := digit_of_value d2 a10
  have hDle : 10 * digitValue d1 + digitValue d2 < 100 := by
    simp only [digitValue]; omega
  simp only [digitValue] at hM2 hDle ⊢
  simp only [Date.Format]
  rw [appendInt_four _ (by omega)]
  rw [appendInt_two _ (by omega), appendInt_two _ hDle]
  simp only [List.cons_append, List.nil_append, List.cons.injEq, and_true]
  refine ⟨?_, ?_, ?_, ?_, trivial, ?_, ?_, trivial, ?_, ?_⟩ <;> omega

/-- C11. For every birthday that `User.Validate` accepts, `time.Parse` with the layout
`2006-01-02` returns a date, and formatting that date with the same layout gives the
birthday back; so `(*DB).GetUser`, which formats the date of the row it reads,
rebuilds the user with exactly that birthday. -/
theorem birthday_parse_format_roundtrip (u : User) (h : u.Validate = none) :
    ∃ t : Date, timeParseDate u.Birthday = some t ∧ t.Format = u.Birthday ∧
      ∀ (id : UUID) (name email : Bytes) (more : List Row) (err : Option DriverError),
        DB.GetUser (Except.ok ⟨Except.ok (id, name, t) :: more, err⟩) email =
          Except.ok ⟨id, name, email, u.Birthday⟩ := by
  simp only [User.Validate] at h
  cases hp : timeParseDate u.Birthday with
  | none => rw [hp] at h; cases h
  | some t =>
    refine ⟨t, rfl, timeParseDate_format _ _ hp, ?_⟩
    intro id name email more err
    simp only [DB.GetUser, timeParseDate_format _ _ hp]

/-- An instance of C11: the birthday `1999-12-31` of the tests is read as the date
1999-12-31 and written back as `1999-12-31`. -/
theorem birthday_parse_format_roundtrip_witness :
    newUser.Validate = none ∧
    timeParseDate (str "1999-12-31") = some ⟨1999, 12, 31⟩ ∧
    (Date.mk 1999 12 31).Format = str "1999-12-31" ∧
    ∃ t : Date, timeParseDate newUser.Birthday = some t ∧ t.Format = newUser.Birthday ∧
      ∀ (id : UUID) (name email : Bytes) (more : List Row) (err : Option DriverError),
        DB.GetUser (Except.ok ⟨Except.ok (id, name, t) :: more, err⟩) email =
          Except.ok ⟨id, name, email, newUser.Birthday⟩ :=
  ⟨by decide, by decide, by decide, birthday_parse_format_roundtrip newUser (by decide)⟩

/-! ## What the client sees of a storage failure -/

/-- The claim C12 as worded fails: two runs of `POST /user` with the request of
`TestCreateUser` that differ only in the database error behind the failed insert
(a missing table, too many connections) are both answered with status 500, but the
two bodies differ, and each is the text of the driver error, SQLSTATE code
included, after the words `database error: `. -/
theorem createUser_storage_failure_counterexample :
    (createUser dbRegistry (failingDatabase undefinedTableError) ResponseWriter.new
      newUserRequest).w.status = 500 ∧
    (createUser dbRegistry (failingDatabase tooManyConnectionsError) ResponseWriter.new
      newUserRequest).w.status = 500 ∧
    (createUser dbRegistry (failingDatabase undefinedTableError) ResponseWriter.new
      newUserRequest).w.body =
      str "database error: ERROR: relation \"users\" does not exist (SQLSTATE 42P01)\n" ∧
    (createUser dbRegistry (failingDatabase tooManyConnectionsError) ResponseWriter.new
      newUserRequest).w.body =
      str "database error: FATAL: sorry, too many clients already (SQLSTATE 53300)\n" ∧
    (createUser dbRegistry (failingDatabase undefinedTableError) ResponseWriter.new
      newUserRequest).w.body ≠
    (createUser dbRegistry (failingDatabase tooManyConnectionsError) ResponseWriter.new
      newUserRequest).w.body := by
  decide

/-- The error that `(*DB).CreateUser` returns for a failure it does not classify: its
text is the lead-in for the kind of failure followed by the text of the driver
error, and it matches neither of the two conflict errors. -/
theorem dbCreateUser_unclassified (err : DriverError) (u : User)
    (hemail : uniqueViolationOn (some err) "users_email_key" = false)
    (hid : uniqueViolationOn (some err) "users_id_key" = false) :
    ∃ e, DB.CreateUser (some err) u = some e ∧
      e.Error = unclassifiedLeadIn err ++ err.Error ∧
      errorsIs e UserErr.ErrUserEmailAlreadyExists = false ∧
      errorsIs e UserErr.ErrUserUUIDAlreadyExists = false := by
  simp only [uniqueViolationOn, reportsUniqueViolation_eq] at hemail hid
  simp only [DB.CreateUser, unclassifiedLeadIn]
  cases hpg : err.asPgError with
  | none => exact ⟨_, rfl, rfl, rfl, rfl⟩
  | some pe =>
    rw [hpg] at hemail hid
    by_cases hcode : pe.Code = str "23505"
    · have h1 : ¬ pe.ConstraintName = str "users_email_key" := by
        intro h; simp [hcode, h] at hemail
      have h2 : ¬ pe.ConstraintName = str "users_id_key" := by
        intro h; simp [hcode, h] at hid
      simp [hcode, h1, h2, GoError.Error, errorsIs]
    · simp [hcode, GoError.Error, errorsIs]

/-- C12, amended. For a storage failure in `CreateUser` that is not classified (a
database error that is no recognised uniqueness violation, or an error that is no
database error), `createUser` answers with status 500 and a body that is the text of
the driver error after a lead-in for the kind of failure, followed by a newline: the
client sees the driver diagnostics, and for a database error this is its severity,
its message and its SQLSTATE code.  The body is the same for two runs whose driver
errors are of the same kind and have the same text. -/
theorem createUser_storage_failure_body (query : QueryOutcome) (r : Request) (u : User)
    (err : DriverError)
    (hdecode : jsonDecodeUser r.Body = Except.ok u) (hvalidate : u.Validate = none)
    (hemail : uniqueViolationOn (some err) "users_email_key" = false)
    (hid : uniqueViolationOn (some err) "users_id_key" = false) :
    (createUser dbRegistry ⟨query, some err⟩ ResponseWriter.new r).w.status = 500 ∧
    (createUser dbRegistry ⟨query, some err⟩ ResponseWriter.new r).w.body =
      unclassifiedLeadIn err ++ err.Error ++ [10] ∧
    (∀ pe, err = DriverError.pg pe →
      (createUser dbRegistry ⟨query, some err⟩ ResponseWriter.new r).w.body =
        unclassifiedLeadIn err ++ pe.Severity ++ str ": " ++ pe.Message ++ str " (SQLSTATE " ++
          pe.Code ++ str ")\n") ∧
    (∀ err2 : DriverError,
      uniqueViolationOn (some err2) "users_email_key" = false →
      uniqueViolationOn (some err2) "users_id_key" = false →
      unclassifiedLeadIn err2 = unclassifiedLeadIn err → err2.Error = err.Error →
      (createUser dbRegistry ⟨query, some err2⟩ ResponseWriter.new r).w.body =
        (createUser dbRegistry ⟨query, some err⟩ ResponseWriter.new r).w.body) := by
  have hrun : ∀ e2 : DriverError,
      uniqueViolationOn (some e2) "users_email_key" = false →
      uniqueViolationOn (some e2) "users_id_key" = false →
      (createUser dbRegistry ⟨query, some e2⟩ ResponseWriter.new r).w =
        httpError ResponseWriter.new (unclassifiedLeadIn e2 ++ e2.Error)
          StatusInternalServerError := by
    intro e2 h1 h2
    obtain ⟨e, he, htext, hn1, hn2⟩ := dbCreateUser_unclassified e2 u h1 h2
    simp only [createUser, hdecode, hvalidate, dbRegistry, he, hn1, hn2, Bool.false_eq_true,
      if_false, htext]
  have hbody : ∀ msg : Bytes,
      (httpError ResponseWriter.new msg StatusInternalServerError).body = msg ++ [10] :=
    fun _ => rfl
  refine ⟨?_, ?_, ?_, ?_⟩
  · rw [hrun err hemail hid]; rfl
  · rw [hrun err hemail hid, hbody]
  · intro pe hpe
    rw [hrun err hemail hid, hbody]
    subst hpe
    have e : str ")\n" = str ")" ++ [10] := by decide
    simp only [DriverError.Error, PgError.Error, e, List.append_assoc]
  · intro err2 h1 h2 hlead htext
    rw [hrun err hemail hid, hrun err2 h1 h2, hlead, htext]

/-- An instance of C12: the insert fails because the table is missing. -/
theorem createUser_storage_failure_body_witness :
    jsonDecodeUser newUserRequest.Body = Except.ok newUser ∧ newUser.Validate = none ∧
    uniqueViolationOn (some (DriverError.pg undefinedTableError)) "users_email_key" = false ∧
    uniqueViolationOn (some (DriverError.pg undefinedTableError)) "users_id_key" = false ∧
    (createUser dbRegistry ⟨Except.ok ⟨[], none⟩, some (DriverError.pg undefinedTableError)⟩
      ResponseWriter.new newUserRequest).w.status = 500 ∧
    (createUser dbRegistry ⟨Except.ok ⟨[], none⟩, some (DriverError.pg undefinedTableError)⟩
      ResponseWriter.new newUserRequest).w.body =
      unclassifiedLeadIn (DriverError.pg undefinedTableError) ++
        (DriverError.pg undefinedTableError).Error ++ [10] :=
  ⟨by rfl, by decide, by decide, by decide,
    (createUser_storage_failure_body (Except.ok ⟨[], none⟩) newUserRequest newUser
      (DriverError.pg undefinedTableError) (by rfl) (by decide) (by decide) (by decide)).1,
    (createUser_storage_failure_body (Except.ok ⟨[], none⟩) newUserRequest newUser
      (DriverError.pg undefinedTableError) (by rfl) (by decide) (by decide) (by decide)).2.1⟩

end SomeAPI
